import Mathlib

/-! TFTP server: a verification development

Shallow embedding of the multi-threaded TFTP server (tftp.c, sync.c,
main_server.c) and theorems about it.

Conventions of the embedding

* A byte is a natural number; a datagram, a C string and a file content are
  lists of bytes.  A C string never contains the byte 0.
* A 16-bit field in network byte order is the list of its two bytes
  (`htons`), read back by `ntohs`.
* A session handler (`handle_read_request`, `handle_write_request`) is a
  transition system: its state is the set of local variables at the
  `recvfrom` call, an event is what `recvfrom` returns (a timeout or a
  datagram), and a step yields the datagrams handed to `sendto` together
  with either the next state or the returned value.
* `recvfrom` copies at most the size of the buffer and leaves the bytes of
  the buffer beyond the received length as they were.
-/

namespace TFTP

/-! ## Constants of tftp.h -/

def TFTP_OPCODE_RRQ : Nat := 1
def TFTP_OPCODE_WRQ : Nat := 2
def TFTP_OPCODE_DATA : Nat := 3
def TFTP_OPCODE_ACK : Nat := 4
def TFTP_OPCODE_ERR : Nat := 5

def MAX_RETRIES : Nat := 4
def MAX_PACKET_SIZE : Nat := 516
def MAX_DATA_SIZE : Nat := 512
def TFTP_HEADER_SIZE : Nat := 4
def MAX_ERROR_MSG_LEN : Nat := 512

/-- Error codes of enum TFTPError. -/
def NotDefined : Nat := 0
def FileNotFound : Nat := 1
def AccessViolation : Nat := 2
def DiskFullOrAllocationExceeded : Nat := 3
def NUM_TFTP_ERRORS : Nat := 8

/-- The two bytes, in memory order, of a uint16_t holding `htons n`
(the argument is first converted to 16 bits). -/
def htons (n : Nat) : List Nat := [(n % 65536) / 256, n % 256]

/-- The value `ntohs` reads from a two-byte field; a missing byte reads 0. -/
def ntohs (f : List Nat) : Nat := f.getD 0 0 * 256 + f.getD 1 0

/-- The bytes of a string literal of the source. -/
def cbytes (s : String) : List Nat := s.toList.map Char.toNat

/-- The table TFTPErrorMessages. -/
def TFTPErrorMessages : List (List Nat) :=
  [ cbytes "Not defined, see error message (if any)",
    cbytes "File not found",
    cbytes "Access violation",
    cbytes "Disk full or allocation exceeded",
    cbytes "Illegal TFTP operation",
    cbytes "Unknown transfer ID",
    cbytes "File already exists",
    cbytes "No such user" ]

/-- Function get_error_message (the code is an int; only non-negative codes
are ever passed). -/
def get_error_message (error_code : Nat) : List Nat :=
  if error_code < NUM_TFTP_ERRORS then TFTPErrorMessages.getD error_code []
  else cbytes "Unknown error"

/-- The 516 bytes that send_error_packet hands to sendto: opcode 5, the error
code, and the 512-byte err_msg buffer.  strncpy copies the message and fills
the rest of the buffer with NUL; the additional message is appended after
": " only when `strlen err_msg + strlen additional + 1 < MAX_ERROR_MSG_LEN`. -/
def send_error_packet (errorCode : Nat) (error_message : List Nat)
    (additional_message : Option (List Nat)) : List Nat :=
  let copied := error_message.take MAX_ERROR_MSG_LEN
  let text :=
    match additional_message with
    | some add =>
        if copied.length + add.length + 1 < MAX_ERROR_MSG_LEN then
          copied ++ cbytes ": " ++ add
        else copied
    | none => copied
  htons TFTP_OPCODE_ERR ++ htons errorCode ++ text
    ++ List.replicate (MAX_ERROR_MSG_LEN - text.length) 0

/-- What a call of recvfrom returns. -/
inductive Recv where
  /-- The call returned -1 (the receive timeout set by SO_RCVTIMEO expired). -/
  | timeout
  /-- A datagram with these bytes arrived. -/
  | dgram (bytes : List Nat)
  deriving DecidableEq, Repr

/-- The content of a buffer after recvfrom stored datagram `d` into it: the
first `min |d| |buf|` bytes are those of `d`, the others are unchanged. -/
def recvInto (buf d : List Nat) : List Nat :=
  d.take buf.length ++ buf.drop d.length

/-- The value recvfrom returns for datagram `d` and a buffer of `size` bytes. -/
def recvlen (size : Nat) (d : List Nat) : Nat := min d.length size

/-- Where a handler stands after a step: blocked in recvfrom with local
state `s`, or returned with value `r`. -/
inductive Status (σ : Type) where
  | waiting (s : σ)
  | returned (r : Int)
  deriving DecidableEq, Repr

/-! ## handle_read_request (tftp.c) -/

/-- Local variables of handle_read_request at the recvfrom call, and the
unread part of the file. -/
structure RrqState where
  /-- Bytes of client->file not yet read by fread. -/
  file : List Nat
  block_num : Nat
  num_bytes_read : Nat
  /-- The first `num_bytes_read + 4` bytes of data_packet. -/
  data_packet : List Nat
  retryCount : Nat
  /-- The four bytes of ack_packet. -/
  ack_packet : List Nat
  deriving DecidableEq, Repr

/-- Head of the do-while body: fread of at most 512 bytes, the DATA packet is
built and handed to sendto, retryCount is reset.  `sendto_ok b` tells whether
the checked sendto of block `b` succeeded; when it fails the handler sends an
ERROR packet (code FileNotFound with the NotDefined message, as in the
source) and returns -1.  fread never returns `(size_t) -1`, so that branch is
dead. -/
def rrq_send_block (sendto_ok : Nat → Bool) (file : List Nat) (block_num : Nat)
    (ack_packet : List Nat) : List (List Nat) × Status RrqState :=
  let chunk := file.take MAX_DATA_SIZE
  let data_packet := htons TFTP_OPCODE_DATA ++ htons block_num ++ chunk
  if sendto_ok block_num then
    ([data_packet],
      .waiting
        { file := file.drop MAX_DATA_SIZE
          block_num := block_num
          num_bytes_read := chunk.length
          data_packet := data_packet
          retryCount := 0
          ack_packet := ack_packet })
  else
    ([send_error_packet FileNotFound (get_error_message NotDefined) none], .returned (-1))

/-- One iteration of the inner `while (1)` loop: the result of recvfrom is
examined.  On the awaited ACK the loop is left, block_num is incremented and
the do-while either starts the next block or ends with 0. -/
def rrq_recv (sendto_ok : Nat → Bool) (s : RrqState) :
    Recv → List (List Nat) × Status RrqState
  | .timeout =>
      if s.retryCount < MAX_RETRIES then
        ([s.data_packet], .waiting { s with retryCount := s.retryCount + 1 })
      else
        ([send_error_packet NotDefined (get_error_message NotDefined) none], .returned (-1))
  | .dgram d =>
      let buf := recvInto s.ack_packet d
      if 0 < recvlen 4 d ∧ buf.take 2 = htons TFTP_OPCODE_ACK
          ∧ buf.drop 2 = htons s.block_num then
        if s.num_bytes_read = MAX_DATA_SIZE then
          rrq_send_block sendto_ok s.file (s.block_num + 1) buf
        else ([], .returned 0)
      else ([], .waiting { s with ack_packet := buf })

/-- The handler run over the successive results of recvfrom.  When the events
are used up the handler is blocked in recvfrom. -/
def rrq_run (sendto_ok : Nat → Bool) :
    Status RrqState → List Recv → List (List Nat) × Status RrqState
  | .returned r, _ => ([], .returned r)
  | .waiting s, [] => ([], .waiting s)
  | .waiting s, ev :: evs =>
      let r := rrq_recv sendto_ok s ev
      let r2 := rrq_run sendto_ok r.2 evs
      (r.1 ++ r2.1, r2.2)

/-- Function handle_read_request on a file with content `file`: the
datagrams sent and the final status.  `ack0` is the indeterminate initial
content of the local ack_packet. -/
def handle_read_request (sendto_ok : Nat → Bool) (ack0 : List Nat) (file : List Nat)
    (evs : List Recv) : List (List Nat) × Status RrqState :=
  let r := rrq_send_block sendto_ok file 1 ack0
  let r2 := rrq_run sendto_ok r.2 evs
  (r.1 ++ r2.1, r2.2)

/-- The datagram ACK(n) as a client sends it. -/
def ackDgram (n : Nat) : List Nat := htons TFTP_OPCODE_ACK ++ htons n

/-- The datagram DATA(n) with the given payload. -/
def dataDgram (n : Nat) (payload : List Nat) : List Nat :=
  htons TFTP_OPCODE_DATA ++ htons n ++ payload

/-- The i-th 512-byte chunk of a content, i counted from 0. -/
def chunk (B : List Nat) (i : Nat) : List Nat := (B.drop (MAX_DATA_SIZE * i)).take MAX_DATA_SIZE

/-! ## handle_write_request (tftp.c) -/

/-- Local variables of handle_write_request at the recvfrom call, and the
bytes written so far to client->file. -/
structure WrqState where
  blockNumber : Nat
  /-- The four bytes of ackPacket. -/
  ackPacket : List Nat
  retryCount : Nat
  /-- The first four bytes (opcode, block_num) of the buffer dataPacket.  The
  buffer is declared in the loop body; it occupies the same storage in every
  iteration, so bytes that a short datagram does not overwrite are those of
  the previous iteration. -/
  header : List Nat
  /-- Bytes fwrite has accepted for client->file, in order (they are in the
  file or still in the buffer of the stream). -/
  written : List Nat
  deriving DecidableEq, Repr

/-- Where handle_write_request stands after a step: blocked in recvfrom,
returned (with the bytes fwrite has accepted by then), or outside the defined
behaviour of C (fwrite called with the size `recvlen - 4` converted from a
negative value). -/
inductive WStatus where
  | waiting (s : WrqState)
  | returned (r : Int) (written : List Nat)
  | undefined
  deriving DecidableEq, Repr

/-- Start of handle_write_request: ACK(0) is sent, blockNumber is 1.
`header0` is the indeterminate initial content of dataPacket. -/
def wrq_init (header0 : List Nat) : List (List Nat) × WStatus :=
  let ackPacket := htons TFTP_OPCODE_ACK ++ htons 0
  ([ackPacket],
    .waiting
      { blockNumber := 1
        ackPacket := ackPacket
        retryCount := 0
        header := header0
        written := [] })

/-- One iteration of the `while (1)` loop of handle_write_request.
`capacity` is the number of bytes the stream client->file accepts: fwrite
takes `min n (capacity - |written|)` of the `n` bytes it is given and returns
that count, and a short count makes the handler send ERROR(DiskFull) and
return -1.  The stream is buffered (the source never calls setvbuf), so
fwrite reports a short count only when a flush of the buffer fails; the bytes
accepted are therefore not bounded by what the device holds, and what reaches
the file is settled by the worker (see `worker_write`).  The test
`ntohs block_num == blockNumber - 1` is written `ntohs block_num + 1 =
blockNumber` (blockNumber is an int that is at least 1). -/
def wrq_recv (capacity : Nat) (s : WrqState) : Recv → List (List Nat) × WStatus
  | .timeout =>
      if s.retryCount < MAX_RETRIES then
        ([s.ackPacket], .waiting { s with retryCount := s.retryCount + 1 })
      else ([], .returned (-1) s.written)
  | .dgram d =>
      let len := recvlen MAX_PACKET_SIZE d
      let header := recvInto s.header d
      let opcode := header.take 2
      let block_num := (header.drop 2).take 2
      if opcode = htons TFTP_OPCODE_DATA ∧ ntohs block_num + 1 = s.blockNumber then
        ([s.ackPacket], .waiting { s with retryCount := 0, header := header })
      else if opcode = htons TFTP_OPCODE_DATA ∧ ntohs block_num = s.blockNumber then
        if len < TFTP_HEADER_SIZE then ([], .undefined)
        else
          let payload := (d.take MAX_PACKET_SIZE).drop TFTP_HEADER_SIZE
          let bytesWritten := min payload.length (capacity - s.written.length)
          let written := s.written ++ payload.take bytesWritten
          if bytesWritten < payload.length then
            ([send_error_packet DiskFullOrAllocationExceeded
                (get_error_message DiskFullOrAllocationExceeded) none],
              .returned (-1) written)
          else
            let ackPacket := s.ackPacket.take 2 ++ block_num
            if len < MAX_PACKET_SIZE then
              ([ackPacket], .returned 0 written)
            else
              ([ackPacket],
                .waiting
                  { blockNumber := s.blockNumber + 1
                    ackPacket := ackPacket
                    retryCount := 0
                    header := header
                    written := written })
      else if ntohs opcode = TFTP_OPCODE_ERR then ([], .returned (-1) s.written)
      else
        ([send_error_packet NotDefined (get_error_message NotDefined) none],
          .returned (-1) s.written)

/-- The handler run over the successive results of recvfrom. -/
def wrq_run (capacity : Nat) : WStatus → List Recv → List (List Nat) × WStatus
  | .waiting s, ev :: evs =>
      let r := wrq_recv capacity s ev
      let r2 := wrq_run capacity r.2 evs
      (r.1 ++ r2.1, r2.2)
  | st, _ => ([], st)

/-- Function handle_write_request: the datagrams sent and the final status. -/
def handle_write_request (capacity : Nat) (header0 : List Nat) (evs : List Recv) :
    List (List Nat) × WStatus :=
  let r := wrq_init header0
  let r2 := wrq_run capacity r.2 evs
  (r.1 ++ r2.1, r2.2)

/-- The datagrams DATA(e), DATA(e+1), ... carrying the given payloads in
order, as successive results of recvfrom. -/
def dataSeq : Nat → List (List Nat) → List Recv
  | _, [] => []
  | e, p :: ps => Recv.dgram (dataDgram e p) :: dataSeq (e + 1) ps

/-- The datagrams ACK(e), ..., ACK(e+n-1). -/
def ackSeq (e n : Nat) : List (List Nat) := (List.range n).map fun i => ackDgram (e + i)

/-! ## File registry (sync.c, sync.h)

A pointer to a FileEntry is modelled by the index of the slot of `files`
that holds it.  A pthread mutex is a flag (true when locked).  Each of the
four synchronisation functions is split at its suspension points: the part
run under files_mutex up to the first pthread_cond_wait or return, the part
run when pthread_cond_wait returns, and for the end functions the trailing
call of delete_fileEntry, which takes files_mutex again. -/

def MAX_CLIENTS : Nat := 500

/-- Struct FileEntry (the condition variable is represented by the sessions
waiting on the entry). -/
structure FileEntry where
  filename : List Nat
  /-- Whether rw_mutex is locked. -/
  rw_mutex : Bool
  actif_readers : Int
  num_readers : Int
  num_writers : Int
  deriving DecidableEq, Repr

/-- Struct FileList: MAX_CLIENTS slots, each NULL (`none`) or an entry. -/
structure FileList where
  files : List (Option FileEntry)
  num_files : Nat
  /-- Whether files_mutex is locked. -/
  files_mutex : Bool
  deriving DecidableEq, Repr

/-- Function initialize_fileList. -/
def initialize_fileList : FileList :=
  { files := List.replicate MAX_CLIENTS none, num_files := 0, files_mutex := false }

/-- Result of a search: the slot of the entry found, NULL, or a read through
a NULL slot (`file_list->files[i]->filename` with `files[i] == NULL`). -/
inductive Lookup where
  | found (i : Nat)
  | notFound
  | nullDeref
  deriving DecidableEq, Repr

/-- The loop of get_fileEntry over the slots from index `i` on. -/
def get_fileEntry_scan (filename : List Nat) : List (Option FileEntry) → Nat → Lookup
  | [], _ => .notFound
  | none :: _, _ => .nullDeref
  | some e :: rest, i =>
      if e.filename = filename then .found i else get_fileEntry_scan filename rest (i + 1)

/-- Function get_fileEntry: the slots `0 .. num_files - 1` are compared in
order, each one dereferenced. -/
def get_fileEntry (filename : List Nat) (file_list : FileList) : Lookup :=
  get_fileEntry_scan filename (file_list.files.take file_list.num_files) 0

/-- Function create_fileEntry: NULL when num_files has reached MAX_CLIENTS
(malloc is taken to succeed). -/
def create_fileEntry (filename : List Nat) (file_list : FileList) : Option FileEntry :=
  if file_list.num_files ≥ MAX_CLIENTS then none
  else
    some
      { filename := filename, rw_mutex := false, actif_readers := 0,
        num_readers := 0, num_writers := 0 }

/-- Function add_fileEntry: the entry goes to the first NULL slot among all
MAX_CLIENTS slots and num_files is incremented.  The result is the slot used
and the new list (return value 0), or `none` (return value -1). -/
def add_fileEntry (new_entry : Option FileEntry) (file_list : FileList) :
    Option (Nat × FileList) :=
  match new_entry with
  | none => none
  | some e =>
      let i := file_list.files.findIdx Option.isNone
      if i < file_list.files.length then
        some (i, { file_list with
                    files := file_list.files.set i (some e)
                    num_files := file_list.num_files + 1 })
      else none

/-- Function get_or_create_fileEntry. -/
def get_or_create_fileEntry (filename : List Nat) (file_list : FileList) :
    Lookup × FileList :=
  match get_fileEntry filename file_list with
  | .found i => (.found i, file_list)
  | .nullDeref => (.nullDeref, file_list)
  | .notFound =>
      match add_fileEntry (create_fileEntry filename file_list) file_list with
      | some (i, fl) => (.found i, fl)
      | none => (.notFound, file_list)

/-- Function delete_fileEntry, run as one critical section of files_mutex:
the return value and the new list, or `none` when the search reads through a
NULL slot.  pthread_mutex_trylock on rw_mutex is attempted only when both
counters are 0, and when it succeeds the entry is freed. -/
def delete_fileEntry (filename : List Nat) (fileList : FileList) : Option (Int × FileList) :=
  match get_fileEntry filename fileList with
  | .nullDeref => none
  | .notFound => some (-1, fileList)
  | .found i =>
      match fileList.files.getD i none with
      | none => none
      | some entry =>
          if entry.num_readers = 0 ∧ entry.num_writers = 0 ∧ entry.rw_mutex = false then
            some (0, { fileList with
                        files := fileList.files.set i none
                        num_files := fileList.num_files - 1 })
          else some (-1, fileList)

/-- How far a call of a synchronisation function got. -/
inductive SyncResult where
  /-- The function returned with files_mutex released; `broadcast` is the
  slot whose condition variable was broadcast, if any. -/
  | returned (fl : FileList) (broadcast : Option Nat)
  /-- The caller sleeps in pthread_cond_wait on the entry of `slot`
  (files_mutex released). -/
  | waits (slot : Nat) (fl : FileList)
  /-- The function returned at `if (file == NULL) return;`, files_mutex still
  locked. -/
  | noEntry (fl : FileList)
  /-- A NULL or freed entry was dereferenced. -/
  | fault
  deriving DecidableEq, Repr

/-- Replace the entry of a slot. -/
def setEntry (fl : FileList) (i : Nat) (e : FileEntry) : FileList :=
  { fl with files := fl.files.set i (some e) }

/-- The test of the while loop of sync_start_read and what follows it, for
the entry `e` of slot `i`:
`while (trylock(rw_mutex) != 0 && actif_readers == 0) wait`, then
`actif_readers++`.  A successful trylock leaves rw_mutex locked. -/
def read_loop (fl : FileList) (i : Nat) (e : FileEntry) : SyncResult :=
  if e.rw_mutex = false then
    .returned
      (setEntry fl i { e with rw_mutex := true, actif_readers := e.actif_readers + 1 }) none
  else if e.actif_readers = 0 then .waits i (setEntry fl i e)
  else .returned (setEntry fl i { e with actif_readers := e.actif_readers + 1 }) none

/-- Function sync_start_read up to its first wait or its return. -/
def sync_start_read (filename : List Nat) (file_list : FileList) : SyncResult :=
  match get_or_create_fileEntry filename file_list with
  | (.nullDeref, _) => .fault
  | (.notFound, fl) => .noEntry { fl with files_mutex := true }
  | (.found i, fl) =>
      match fl.files.getD i none with
      | none => .fault
      | some e => read_loop fl i { e with num_readers := e.num_readers + 1 }

/-- Function sync_start_read from the return of pthread_cond_wait on: the
loop is left at once when `num_readers > 1`, otherwise its test is evaluated
again. -/
def sync_start_read_wake (slot : Nat) (file_list : FileList) : SyncResult :=
  match file_list.files.getD slot none with
  | none => .fault
  | some e =>
      if e.num_readers > 1 then
        .returned (setEntry file_list slot { e with actif_readers := e.actif_readers + 1 }) none
      else read_loop file_list slot e

/-- Function sync_end_read up to the call of delete_fileEntry. -/
def sync_end_read (filename : List Nat) (file_list : FileList) : SyncResult :=
  match get_fileEntry filename file_list with
  | .nullDeref => .fault
  | .notFound => .noEntry { file_list with files_mutex := true }
  | .found i =>
      match file_list.files.getD i none with
      | none => .fault
      | some e =>
          let e1 := { e with num_readers := e.num_readers - 1,
                             actif_readers := e.actif_readers - 1 }
          if e1.num_readers = 0 then
            .returned (setEntry file_list i { e1 with rw_mutex := false }) (some i)
          else .returned (setEntry file_list i e1) none

/-- The test of the while loop of sync_start_write for the entry `e` of slot
`i`: `while (trylock(rw_mutex) != 0 || actif_readers > 0) wait`.  A
successful trylock leaves rw_mutex locked, also when the writer then waits
for active readers. -/
def write_loop (fl : FileList) (i : Nat) (e : FileEntry) : SyncResult :=
  if e.rw_mutex = false then
    if e.actif_readers > 0 then .waits i (setEntry fl i { e with rw_mutex := true })
    else .returned (setEntry fl i { e with rw_mutex := true }) none
  else .waits i (setEntry fl i e)

/-- Function sync_start_write up to its first wait or its return. -/
def sync_start_write (filename : List Nat) (file_list : FileList) : SyncResult :=
  match get_or_create_fileEntry filename file_list with
  | (.nullDeref, _) => .fault
  | (.notFound, fl) => .noEntry { fl with files_mutex := true }
  | (.found i, fl) =>
      match fl.files.getD i none with
      | none => .fault
      | some e => write_loop fl i { e with num_writers := e.num_writers + 1 }

/-- Function sync_start_write from the return of pthread_cond_wait on. -/
def sync_start_write_wake (slot : Nat) (file_list : FileList) : SyncResult :=
  match file_list.files.getD slot none with
  | none => .fault
  | some e => write_loop file_list slot e

/-- Function sync_end_write up to the call of delete_fileEntry. -/
def sync_end_write (filename : List Nat) (file_list : FileList) : SyncResult :=
  match get_fileEntry filename file_list with
  | .nullDeref => .fault
  | .notFound => .noEntry { file_list with files_mutex := true }
  | .found i =>
      match file_list.files.getD i none with
      | none => .fault
      | some e =>
          .returned
            (setEntry file_list i { e with num_writers := e.num_writers - 1, rw_mutex := false })
            (some i)

/-! ### Sessions using the file registry

The step relation of the registry: every step is one critical section of
files_mutex executed by one session. -/

/-- Which pair of functions a session calls: sync_start_read and
sync_end_read (RRQ), or sync_start_write and sync_end_write (WRQ). -/
inductive Kind where
  | reader
  | writer
  deriving DecidableEq, Repr

/-- Where a session stands. -/
inductive Phase where
  /-- It has not called sync_start yet. -/
  | idle
  /-- It sleeps in pthread_cond_wait on the entry of `slot`; `woken` tells
  whether a broadcast has reached it since. -/
  | waiting (slot : Nat) (woken : Bool)
  /-- It has returned from sync_start and not yet called sync_end. -/
  | inside
  /-- It is in sync_end, before the call of delete_fileEntry. -/
  | ending
  /-- It has returned from sync_end. -/
  | finished
  deriving DecidableEq, Repr

structure Session where
  kind : Kind
  filename : List Nat
  phase : Phase
  deriving DecidableEq, Repr

/-- The registry together with the sessions using it. -/
structure SyncState where
  file_list : FileList
  sessions : List Session
  deriving DecidableEq, Repr

/-- Effect of pthread_cond_broadcast on the condition variable of `slot`. -/
def broadcast (slot : Nat) (sessions : List Session) : List Session :=
  sessions.map fun s =>
    match s.phase with
    | .waiting j _ => if j = slot then { s with phase := .waiting j true } else s
    | _ => s

/-- The state after session `sid` ran a part of a synchronisation function
with result `r`: `after` is its phase when the part returned normally,
`afterNoEntry` when it returned at `if (file == NULL) return;`.  A fault
has no successor. -/
def applyResult (st : SyncState) (sid : Nat) (s : Session) (r : SyncResult)
    (after afterNoEntry : Phase) : Option SyncState :=
  match r with
  | .returned fl (some j) =>
      some { file_list := fl
             sessions := broadcast j (st.sessions.set sid { s with phase := after }) }
  | .returned fl none =>
      some { file_list := fl, sessions := st.sessions.set sid { s with phase := after } }
  | .waits j fl =>
      some { file_list := fl
             sessions := st.sessions.set sid { s with phase := .waiting j false } }
  | .noEntry fl =>
      some { file_list := fl
             sessions := st.sessions.set sid { s with phase := afterNoEntry } }
  | .fault => none

/-- One step of session `sid`; `none` when the session cannot run (it does
not exist, it has finished, it sleeps without having been woken, or
files_mutex is locked) or when the step faults. -/
def step (st : SyncState) (sid : Nat) : Option SyncState :=
  if st.file_list.files_mutex then none
  else
    match st.sessions.get? sid with
    | none => none
    | some s =>
        match s.phase, s.kind with
        | .idle, .reader =>
            applyResult st sid s (sync_start_read s.filename st.file_list) .inside .inside
        | .idle, .writer =>
            applyResult st sid s (sync_start_write s.filename st.file_list) .inside .inside
        | .waiting j true, .reader =>
            applyResult st sid s (sync_start_read_wake j st.file_list) .inside .inside
        | .waiting j true, .writer =>
            applyResult st sid s (sync_start_write_wake j st.file_list) .inside .inside
        | .waiting _ false, _ => none
        | .inside, .reader =>
            applyResult st sid s (sync_end_read s.filename st.file_list) .ending .finished
        | .inside, .writer =>
            applyResult st sid s (sync_end_write s.filename st.file_list) .ending .finished
        | .ending, _ =>
            match delete_fileEntry s.filename st.file_list with
            | none => none
            | some (_, fl) =>
                some { file_list := fl
                       sessions := st.sessions.set sid { s with phase := .finished } }
        | .finished, _ => none

/-- The state reached by letting the sessions of a schedule step in turn. -/
def run : SyncState → List Nat → Option SyncState
  | st, [] => some st
  | st, sid :: rest =>
      match step st sid with
      | none => none
      | some st2 => run st2 rest

/-- The initialised empty registry and sessions that have not started. -/
def initSync (specs : List (Kind × List Nat)) : SyncState :=
  { file_list := initialize_fileList
    sessions := specs.map fun ks => { kind := ks.1, filename := ks.2, phase := .idle } }

/-- The entry of a file name in the first slot holding that name, searched
over all slots (used to state properties, not part of the program). -/
def entryOf (filename : List Nat) (fl : FileList) : Option FileEntry :=
  (fl.files.find? fun o =>
    match o with
    | some e => e.filename = filename
    | none => false).join

/-! ## Client registry (tftp.c) and dispatcher (main_server.c)

A char buffer is modelled by the list of the bytes stored in it; a C string
function reads such a list up to its first NUL, and the end of the list
counts as a NUL (bytes that were never stored are not modelled). -/

/-- The C string starting at a buffer: the bytes before the first NUL. -/
def cstr (buf : List Nat) : List Nat := buf.takeWhile fun b => b ≠ 0

/-- Whether strcmp returns 0. -/
def strcmp_eq (a b : List Nat) : Bool := cstr a == cstr b

/-- Function tolower in the C locale. -/
def tolower (c : Nat) : Nat := if 65 ≤ c ∧ c ≤ 90 then c + 32 else c

/-- Whether strcasecmp returns 0. -/
def strcasecmp_eq (a b : List Nat) : Bool := (cstr a).map tolower == (cstr b).map tolower

/-- Struct TFTP_Client as far as the registry reads it: the session socket,
the 16 bytes of the peer address and the bytes of the initial packet. -/
structure TFTP_Client where
  socket_fd : Nat
  client_addr : List Nat
  packet : List Nat
  deriving DecidableEq, Repr

/-- The array `clients` of TFTP_ClientsList; nbClients is its length. -/
abbrev TFTP_ClientsList := List (Option TFTP_Client)

/-- Function ajouterClient (realloc is taken to succeed): the new client goes
to the first NULL slot among the first nbClients, or to the new last slot.
When a NULL slot is used the new last slot, which the source leaves
uninitialised, is modelled as NULL. -/
def ajouterClient (nouveauClient : TFTP_Client) (clients_list : TFTP_ClientsList) :
    TFTP_ClientsList :=
  let emplacementVide := clients_list.findIdx Option.isNone
  if emplacementVide < clients_list.length then
    clients_list.set emplacementVide (some nouveauClient) ++ [none]
  else clients_list ++ [some nouveauClient]

/-- The loop of get_client from index `i` on. -/
def get_client_scan (client_addr request : List Nat) : TFTP_ClientsList → Nat → Lookup
  | [], _ => .notFound
  | none :: _, _ => .nullDeref
  | some client :: rest, i =>
      if client.client_addr = client_addr ∧ strcmp_eq client.packet request = true then .found i
      else get_client_scan client_addr request rest (i + 1)

/-- Function get_client: the first client whose address bytes are equal
(memcmp) and whose packet is equal as a C string (strcmp) to the request. -/
def get_client (listeClients : TFTP_ClientsList) (client_addr request : List Nat) : Lookup :=
  get_client_scan client_addr request listeClients 0

/-- The loop of supprimer_client from index `i` on. -/
def supprimer_client_scan (socket_fd : Nat) : TFTP_ClientsList → Nat → Lookup
  | [], _ => .notFound
  | none :: _, _ => .nullDeref
  | some c :: rest, i =>
      if c.socket_fd = socket_fd then .found i
      else supprimer_client_scan socket_fd rest (i + 1)

/-- Function supprimer_client: the first client with the socket of `client`
is removed and the following ones are shifted down; `none` when a NULL slot
is dereferenced. -/
def supprimer_client (listeClients : TFTP_ClientsList) (client : TFTP_Client) :
    Option TFTP_ClientsList :=
  match supprimer_client_scan client.socket_fd listeClients 0 with
  | .found i => some (listeClients.eraseIdx i)
  | .notFound => some listeClients
  | .nullDeref => none

/-- What the loop body of main does with one datagram. -/
inductive Dispatch where
  /-- Fewer than 11 bytes: `continue`. -/
  | droppedShort
  /-- The lookup get_client found a client: `continue`. -/
  | droppedDuplicate
  /-- A session was created, registered and handed to a worker thread. -/
  | accepted (client : TFTP_Client) (clientsList : TFTP_ClientsList)
  /-- The lookup dereferenced a NULL slot. -/
  | fault
  deriving DecidableEq, Repr

/-- One iteration of the loop of main for a datagram `buffer` received from
`client_addr`; `newsockfd` is the socket create_Socket returns.  recvfrom
stores at most MAX_PACKET_SIZE bytes. -/
def main_step (clientsList : TFTP_ClientsList) (client_addr buffer : List Nat)
    (newsockfd : Nat) : Dispatch :=
  let received := buffer.take MAX_PACKET_SIZE
  if received.length < 11 then .droppedShort
  else
    match get_client clientsList client_addr received with
    | .found _ => .droppedDuplicate
    | .nullDeref => .fault
    | .notFound =>
        let client : TFTP_Client :=
          { socket_fd := newsockfd, client_addr := client_addr, packet := received }
        .accepted client (ajouterClient client clientsList)

/-- The datagram of a request: opcode, file name, NUL, mode, NUL. -/
def requestDgram (opcode : Nat) (filename mode : List Nat) : List Nat :=
  htons opcode ++ filename ++ [0] ++ mode ++ [0]

/-! ## The worker handleClient (main_server.c) -/

/-- The file system: a map from names to contents. -/
abbrev FS := List Nat → Option (List Nat)

/-- Function remove: the name is unlinked (no effect when it is absent). -/
def FS.remove (fs : FS) (name : List Nat) : FS := fun n => if n = name then none else fs n

/-- Function rename: the content of `old` becomes that of `new`, replacing
it; no effect when `old` is absent. -/
def FS.rename (fs : FS) (old new : List Nat) : FS :=
  match fs old with
  | none => fs
  | some c => fun n => if n = new then some c else if n = old then none else fs n

/-- The content stored under a name (fopen for writing, then fwrite). -/
def FS.write (fs : FS) (name content : List Nat) : FS :=
  fun n => if n = name then some content else fs n

/-- Function get_temp_file_name (malloc is taken to succeed). -/
def get_temp_file_name (nom_fichier : List Nat) : List Nat := nom_fichier ++ cbytes ".tmp"

/-- A call the worker makes on its collaborators. -/
inductive Call where
  /-- A datagram handed to sendto on the session socket. -/
  | sendto (datagram : List Nat)
  | SYNC_START (kind : Kind) (filename : List Nat)
  | SYNC_END (kind : Kind) (filename : List Nat)
  | fopen (name mode : List Nat)
  /-- The call `selectedHandler(client, &request)`. -/
  | selectedHandler (kind : Kind)
  | remove (name : List Nat)
  | rename (old new : List Nat)
  | supprimer_client
  deriving DecidableEq, Repr

/-- How the worker ended. -/
inductive WorkerEnd where
  /-- It reached pthread_exit. -/
  | exited
  /-- It is blocked in recvfrom: the events are used up. -/
  | blocked
  /-- It left the defined behaviour of C. -/
  | undefined
  deriving DecidableEq, Repr

/-- What the transfer handler is given by its environment. -/
structure Net where
  /-- Whether the checked sendto of a DATA block succeeds. -/
  sendto_ok : Nat → Bool
  /-- Indeterminate initial content of the handler's receive buffer. -/
  buffer0 : List Nat
  /-- Number of bytes fwrite accepts for the written file before it reports
  a short count. -/
  capacity : Nat
  /-- Number of accepted bytes that stdio has passed to the device before
  fclose; it depends on the size of the buffer of the stream. -/
  flushed : Nat
  /-- Number of bytes the device can hold for the written file. -/
  device : Nat
  /-- Successive results of recvfrom on the session socket. -/
  events : List Recv

/-- The worker's run: its calls in program order, the file system and the
client registry it leaves, and how it ended. -/
structure WorkerResult where
  calls : List Call
  fs : FS
  clientsList : TFTP_ClientsList
  ending : WorkerEnd

/-- The last lines of handleClient: SYNC_END, supprimer_client,
pthread_exit.  When supprimer_client finds the session it calls
`fclose(client->file)`, which flushes the buffer of the stream: `stream` is
the name under which a file opened for writing is linked at that moment,
with the bytes the file holds once flushed; it is `none` for a file opened
for reading and for a file that has been unlinked.  When the session is not
found nothing is closed. -/
def worker_finish (kind : Kind) (filename : List Nat) (client : TFTP_Client)
    (calls : List Call) (fs : FS) (clientsList : TFTP_ClientsList)
    (stream : Option (List Nat × List Nat)) : WorkerResult :=
  let calls := calls ++ [.SYNC_END kind filename, .supprimer_client]
  let closed : FS :=
    match supprimer_client_scan client.socket_fd clientsList 0, stream with
    | .found _, some (name, content) => fs.write name content
    | _, _ => fs
  match supprimer_client clientsList client with
  | some l => { calls := calls, fs := closed, clientsList := l, ending := .exited }
  | none => { calls := calls, fs := fs, clientsList := clientsList, ending := .undefined }

/-- Function handleClient from `status = selectedHandler(...)` on, for an
RRQ whose file was opened with content `content`. -/
def worker_read (filename : List Nat) (client : TFTP_Client) (net : Net) (content : List Nat)
    (calls : List Call) (fs : FS) (clientsList : TFTP_ClientsList) : WorkerResult :=
  let r := handle_read_request net.sendto_ok net.buffer0 content net.events
  let calls := calls ++ [.selectedHandler .reader] ++ r.1.map Call.sendto
  match r.2 with
  | .waiting _ => { calls := calls, fs := fs, clientsList := clientsList, ending := .blocked }
  | .returned _ => worker_finish .reader filename client calls fs clientsList none

/-- Function handleClient from `status = selectedHandler(...)` on, for a WRQ
whose temp file was opened: the handler runs, then the old file is removed
and the temp file renamed when status is 0, the temp file removed
otherwise.  The stream stays open until supprimer_client: while the handler
runs and during remove and rename the temp file holds the accepted bytes that
have been flushed so far (`net.flushed` of them, as far as the device holds
them); the rest reaches the file, under the name it then has, at the fclose
of supprimer_client, whose result the source does not test. -/
def worker_write (filename : List Nat) (client : TFTP_Client) (net : Net)
    (calls : List Call) (fs : FS) (clientsList : TFTP_ClientsList) : WorkerResult :=
  let temp_file := get_temp_file_name filename
  let r := handle_write_request net.capacity net.buffer0 net.events
  let calls := calls ++ [.selectedHandler .writer] ++ r.1.map Call.sendto
  match r.2 with
  | .waiting s =>
      { calls := calls
        fs := fs.write temp_file (s.written.take (min net.flushed net.device))
        clientsList := clientsList
        ending := .blocked }
  | .undefined =>
      { calls := calls, fs := fs, clientsList := clientsList, ending := .undefined }
  | .returned status written =>
      let fs := fs.write temp_file (written.take (min net.flushed net.device))
      if status = 0 then
        if (fs filename).isSome then
          worker_finish .writer filename client
            (calls ++ [.remove filename, .rename temp_file filename])
            ((fs.remove filename).rename temp_file filename) clientsList
            (some (filename, written.take net.device))
        else
          worker_finish .writer filename client (calls ++ [.rename temp_file filename])
            (fs.rename temp_file filename) clientsList
            (some (filename, written.take net.device))
      else
        worker_finish .writer filename client (calls ++ [.remove temp_file])
          (fs.remove temp_file) clientsList none

/-- Function handleClient.  `file0_null` tells whether the field
`client->file`, which nothing initialises before the opening code, happens to
be NULL; `fopen_w_ok` tells whether fopen of the temp file for writing
succeeds (fopen for reading succeeds when the name is in the file system).
The calls of the synchronisation functions are recorded, they are taken to
return.  The strcpy calls into `request.filename` (512 bytes) and
`request.mode` (10 bytes) leave the defined behaviour when the string does
not fit. -/
def handleClient (client : TFTP_Client) (file0_null fopen_w_ok : Bool) (net : Net) (fs : FS)
    (clientsList : TFTP_ClientsList) : WorkerResult :=
  let buffer := client.packet
  let opcode := ntohs (buffer.take 2)
  let stop (calls : List Call) (e : WorkerEnd) : WorkerResult :=
    { calls := calls, fs := fs, clientsList := clientsList, ending := e }
  if opcode ≠ TFTP_OPCODE_RRQ ∧ opcode ≠ TFTP_OPCODE_WRQ then
    stop [.sendto (send_error_packet NotDefined (get_error_message NotDefined)
            (some (cbytes "Opcode non pris en charge")))] .exited
  else
    let kind := if opcode = TFTP_OPCODE_RRQ then Kind.reader else Kind.writer
    let filename := cstr (buffer.drop 2)
    if filename.length ≥ 512 then stop [] .undefined
    else if filename.length = 0 then
      stop [.sendto (send_error_packet NotDefined (get_error_message NotDefined)
              (some (cbytes "Nom de fichier vide")))] .exited
    else
      let mode_offset := 2 + filename.length + 1
      let mode := cstr (buffer.drop mode_offset)
      if mode.length ≥ 10 then stop [] .undefined
      else
        let netascii := strcasecmp_eq mode (cbytes "netascii")
        let octet := strcasecmp_eq mode (cbytes "octet")
        let calls : List Call :=
          if mode.length = 0 ∨ (netascii = false ∧ octet = false) then
            [.sendto (send_error_packet NotDefined (get_error_message NotDefined)
              (some (cbytes "Mode de transfert non reconnu")))]
          else []
        let calls := calls ++ [.SYNC_START kind filename]
        let fail (calls : List Call) : WorkerResult :=
          stop (calls ++ [.sendto (send_error_packet FileNotFound
                  (get_error_message FileNotFound) none), .SYNC_END kind filename]) .exited
        if netascii = false ∧ octet = false then
          if file0_null then fail calls else stop calls .undefined
        else
          let fmode := if netascii then cbytes "r" else cbytes "rb"
          let wmode := if netascii then cbytes "w" else cbytes "wb"
          match kind with
          | .reader =>
              let calls := calls ++ [.fopen filename fmode]
              match fs filename with
              | none => fail calls
              | some content => worker_read filename client net content calls fs clientsList
          | .writer =>
              let calls := calls ++ [.fopen (get_temp_file_name filename) wmode]
              if fopen_w_ok then
                worker_write filename client net calls
                  (fs.write (get_temp_file_name filename) []) clientsList
              else fail calls

/-- An example peer address (the 16 bytes of a struct sockaddr_in). -/
def peerA : List Nat := [2, 0, 200, 1, 10, 0, 0, 7, 0, 0, 0, 0, 0, 0, 0, 0]

/-- An environment in which the peer never sends anything. -/
def silentNet : Net :=
  { sendto_ok := fun _ => true, buffer0 := [0, 0, 0, 0], capacity := 0, flushed := 0,
    device := 0, events := [] }

/-- An environment in which the client sends the single short block "hi". -/
def hiNet : Net :=
  { sendto_ok := fun _ => true, buffer0 := [0, 0, 0, 0], capacity := 10, flushed := 0,
    device := 10,
    events := [Recv.dgram (dataDgram 1 [104, 105])] }

/-- The run in which the dispatcher, on an empty client registry and an empty
file system, accepts the datagram `pkt` from peerA: the session is registered,
its worker reaches pthread_exit without having called supprimer_client, and
the registry the worker leaves still holds the session. -/
def registeredAfterExit (pkt : List Nat) : Prop :=
  main_step [] peerA pkt 5
      = .accepted { socket_fd := 5, client_addr := peerA, packet := pkt }
          [some { socket_fd := 5, client_addr := peerA, packet := pkt }]
  ∧ (handleClient { socket_fd := 5, client_addr := peerA, packet := pkt } true true
        silentNet (fun _ => none)
        [some { socket_fd := 5, client_addr := peerA, packet := pkt }]).ending = .exited
  ∧ (handleClient { socket_fd := 5, client_addr := peerA, packet := pkt } true true
        silentNet (fun _ => none)
        [some { socket_fd := 5, client_addr := peerA, packet := pkt }]).clientsList
      = [some { socket_fd := 5, client_addr := peerA, packet := pkt }]
  ∧ Call.supprimer_client ∉
      (handleClient { socket_fd := 5, client_addr := peerA, packet := pkt } true true
        silentNet (fun _ => none)
        [some { socket_fd := 5, client_addr := peerA, packet := pkt }]).calls

/-- An environment in which every receive of the session times out. -/
def timeoutNet : Net :=
  { sendto_ok := fun _ => true, buffer0 := [0, 0, 0, 0], capacity := 10, flushed := 0,
    device := 10,
    events := List.replicate 5 Recv.timeout }

/-- Every datagram among the events is made of bytes (values below 256). -/
def byteEvents (evs : List Recv) : Prop :=
  ∀ d, Recv.dgram d ∈ evs → ∀ b ∈ d, b < 256

/-- Every event is a datagram of at least four bytes (no timeout, no
datagram shorter than a DATA header). -/
def wholeEvents (evs : List Recv) : Prop :=
  ∀ ev ∈ evs, ∃ d, ev = Recv.dgram d ∧ 4 ≤ d.length

/-- Whether an event is a copy of DATA(n): a datagram whose first four bytes
are the opcode 3 and the block number n. -/
def isDataCopy (n : Nat) : Recv → Bool
  | .dgram d => decide (d.take 4 = dataDgram n [])
  | .timeout => false

/-- The events handle_write_request actually receives: those up to the one at
which it returns. -/
def wrq_received (capacity : Nat) : WStatus → List Recv → List Recv
  | .waiting s, ev :: evs => ev :: wrq_received capacity (wrq_recv capacity s ev).2 evs
  | _, _ => []

/-- What holds of the local variables of handle_write_request whenever it
waits in recvfrom: ackPacket is ACK(blockNumber - 1), blockNumber is between
1 and 65536, and the header buffer has its four bytes. -/
def WrqInv (s : WrqState) : Prop :=
  s.ackPacket = ackDgram (s.blockNumber - 1) ∧ 1 ≤ s.blockNumber ∧ s.blockNumber ≤ 65536
    ∧ s.header.length = 4

/-- The registry when MAX_CLIENTS sessions read MAX_CLIENTS different files:
every slot holds the entry of one file, each with its reader admitted. -/
def fullRegistry : FileList :=
  { files := (List.range MAX_CLIENTS).map fun i =>
      some { filename := [1 + i / 250, 1 + i % 250], rw_mutex := true, actif_readers := 1,
             num_readers := 1, num_writers := 0 }
    num_files := MAX_CLIENTS
    files_mutex := false }

/-- The wire block number of the datagram when an iteration of the loop of
handle_write_request hands its payload to fwrite (the test `opcode == DATA &&
ntohs(block_num) == blockNumber` succeeds on at least four received bytes);
empty otherwise. -/
def wrq_block_here (s : WrqState) : Recv → List Nat
  | .dgram d =>
      let header := recvInto s.header d
      if header.take 2 = htons TFTP_OPCODE_DATA
          ∧ ¬ (ntohs ((header.drop 2).take 2) + 1 = s.blockNumber)
          ∧ ntohs ((header.drop 2).take 2) = s.blockNumber
          ∧ ¬ (recvlen MAX_PACKET_SIZE d < TFTP_HEADER_SIZE) then
        [ntohs ((header.drop 2).take 2)]
      else []
  | .timeout => []

/-- The wire block numbers of the blocks written to the file during a run,
in the order of the writes. -/
def wrq_written_blocks (capacity : Nat) : WStatus → List Recv → List Nat
  | .waiting s, ev :: evs =>
      wrq_block_here s ev ++ wrq_written_blocks capacity (wrq_recv capacity s ev).2 evs
  | _, _ => []

/-! ### A registry used by readers of one file (used to state properties) -/

/-- The entry of file `f` when `k` sessions are between sync_start_read and
sync_end_read and there is no writer. -/
def readerEntry (f : List Nat) (k : Nat) : FileEntry :=
  { filename := f, rw_mutex := decide (0 < k), actif_readers := k, num_readers := k,
    num_writers := 0 }

/-- The registry whose only entry, in slot 0, is `readerEntry f k`. -/
def readerRegistry (f : List Nat) (k : Nat) : FileList :=
  { files := some (readerEntry f k) :: List.replicate (MAX_CLIENTS - 1) none
    num_files := 1
    files_mutex := false }

/-- Number of sessions between sync_start and sync_end. -/
def insideCount (sessions : List Session) : Nat :=
  sessions.countP fun s => decide (s.phase = .inside)

/-- Invariant of the runs made of readers of the file `f`: no session sleeps,
and the registry either holds the one entry of `f` with both reader counters
equal to the number of sessions inside, or is empty with no session inside. -/
def ReadOnlyInv (f : List Nat) (st : SyncState) : Prop :=
  (∀ s ∈ st.sessions, s.kind = .reader ∧ s.filename = f ∧
      (s.phase = .idle ∨ s.phase = .inside ∨ s.phase = .ending ∨ s.phase = .finished)) ∧
    (st.file_list = readerRegistry f (insideCount st.sessions) ∨
      (insideCount st.sessions = 0 ∧ st.file_list = initialize_fileList))

end TFTP

/-! # Theorems -/

namespace TFTP

/-! ## Helper lemmas on buffers and chunks -/

theorem recvInto_full (buf d : List Nat) (h : d.length = buf.length) :
    recvInto buf d = d := by
  unfold recvInto
  rw [← h, List.take_length, List.drop_eq_nil_of_le (by omega), List.append_nil]

theorem ackDgram_length (n : Nat) : (ackDgram n).length = 4 := by
  simp [ackDgram, htons]

theorem chunk_succ (f : List Nat) (i : Nat) :
    chunk f (i + 1) = chunk (f.drop MAX_DATA_SIZE) i := by
  unfold chunk
  rw [List.drop_drop]
  congr 2
  simp [MAX_DATA_SIZE]; ring

theorem chunk_zero (f : List Nat) : chunk f 0 = f.take MAX_DATA_SIZE := by
  simp [chunk]

/-- The awaited ACK, received whole, ends the wait for block `s.block_num`. -/
theorem rrq_recv_ack (sendto_ok : Nat → Bool) (s : RrqState) (h : s.ack_packet.length = 4) :
    rrq_recv sendto_ok s (.dgram (ackDgram s.block_num)) =
      if s.num_bytes_read = MAX_DATA_SIZE then
        rrq_send_block sendto_ok s.file (s.block_num + 1) (ackDgram s.block_num)
      else ([], .returned 0) := by
  have hb : recvInto s.ack_packet (ackDgram s.block_num) = ackDgram s.block_num :=
    recvInto_full _ _ (by rw [ackDgram_length, h])
  simp only [rrq_recv, hb]
  have hc : 0 < recvlen 4 (ackDgram s.block_num)
      ∧ (ackDgram s.block_num).take 2 = htons TFTP_OPCODE_ACK
      ∧ (ackDgram s.block_num).drop 2 = htons s.block_num := by
    refine ⟨by simp [recvlen, ackDgram_length], ?_, ?_⟩ <;> simp [ackDgram, htons]
  rw [if_pos hc]

theorem map_range_succ {α : Type} (g : Nat → α) (n : Nat) :
    (List.range (n + 1)).map g = g 0 :: (List.range n).map fun i => g (i + 1) := by
  rw [List.range_succ_eq_map, List.map_cons, List.map_map]
  rfl

/-- From the first send of block `b` on, a client that acknowledges every
block in turn receives the remaining chunks and the handler returns 0. -/
theorem rrq_run_acks (sendto_ok : Nat → Bool) (hok : ∀ n, sendto_ok n = true) :
    ∀ (n : Nat) (f : List Nat) (b : Nat) (ack : List Nat), ack.length = 4 →
      f.length / MAX_DATA_SIZE = n →
      rrq_run sendto_ok (rrq_send_block sendto_ok f b ack).2
          ((List.range (n + 1)).map fun i => Recv.dgram (ackDgram (b + i)))
        = ((List.range n).map fun i => dataDgram (b + 1 + i) (chunk f (i + 1)),
            .returned 0) := by
  intro n
  induction n with
  | zero =>
    intro f b ack hack hf
    have hlt : f.length < MAX_DATA_SIZE :=
      Nat.div_eq_zero_iff (by decide : 0 < MAX_DATA_SIZE) |>.mp hf
    have hne : ¬ (min MAX_DATA_SIZE f.length = MAX_DATA_SIZE) := by omega
    rw [map_range_succ]
    simp only [rrq_send_block, hok, if_true, List.range_zero, List.map_nil,
      Nat.add_zero, rrq_run]
    rw [show ackDgram b = ackDgram
        ({ file := f.drop MAX_DATA_SIZE, block_num := b,
           num_bytes_read := (f.take MAX_DATA_SIZE).length,
           data_packet := htons TFTP_OPCODE_DATA ++ htons b ++ f.take MAX_DATA_SIZE,
           retryCount := 0, ack_packet := ack } : RrqState).block_num from rfl]
    rw [rrq_recv_ack _ _ hack]
    simp [List.length_take, hne, rrq_run]
  | succ n ih =>
    intro f b ack hack hf
    have hge : MAX_DATA_SIZE ≤ f.length := by
      by_contra hlt
      rw [Nat.div_eq_of_lt (by omega)] at hf
      omega
    have hmin : min MAX_DATA_SIZE f.length = MAX_DATA_SIZE := by omega
    have hdrop : (f.drop MAX_DATA_SIZE).length / MAX_DATA_SIZE = n := by
      rw [List.length_drop]
      have : f.length = (f.length - MAX_DATA_SIZE) + MAX_DATA_SIZE := by omega
      rw [this, Nat.add_div_right _ (by decide : 0 < MAX_DATA_SIZE)] at hf
      omega
    have ih2 := ih (f.drop MAX_DATA_SIZE) (b + 1) (ackDgram b) (ackDgram_length b) hdrop
    have hev : ((List.range (n + 1 + 1)).map fun i => Recv.dgram (ackDgram (b + i)))
        = Recv.dgram (ackDgram b)
            :: (List.range (n + 1)).map fun i => Recv.dgram (ackDgram (b + 1 + i)) := by
      rw [map_range_succ]
      congr 1
      apply List.map_congr_left
      intro i _
      congr 2
      omega
    have hout : ((List.range (n + 1)).map fun i => dataDgram (b + 1 + i) (chunk f (i + 1)))
        = dataDgram (b + 1) ((f.drop MAX_DATA_SIZE).take MAX_DATA_SIZE)
            :: (List.range n).map
                fun i => dataDgram (b + 1 + 1 + i) (chunk (f.drop MAX_DATA_SIZE) (i + 1)) := by
      rw [map_range_succ]
      congr 1
      apply List.map_congr_left
      intro i _
      rw [chunk_succ f (i + 1), show b + 1 + (i + 1) = b + 1 + 1 + i by omega]
    rw [hev, hout]
    simp only [rrq_send_block, hok, if_true, rrq_run]
    rw [show ackDgram b = ackDgram
        ({ file := f.drop MAX_DATA_SIZE, block_num := b,
           num_bytes_read := (f.take MAX_DATA_SIZE).length,
           data_packet := htons TFTP_OPCODE_DATA ++ htons b ++ f.take MAX_DATA_SIZE,
           retryCount := 0, ack_packet := ack } : RrqState).block_num from rfl]
    rw [rrq_recv_ack _ _ hack]
    simp only [List.length_take, hmin, if_true]
    rw [ih2]
    simp only [rrq_send_block, hok, if_true, dataDgram, List.singleton_append]

theorem chunks_join : ∀ (n : Nat) (B : List Nat), B.length / MAX_DATA_SIZE = n →
    ((List.range (n + 1)).map (chunk B)).flatten = B := by
  intro n
  induction n with
  | zero =>
    intro B hB
    have hlt : B.length < MAX_DATA_SIZE :=
      Nat.div_eq_zero_iff (by decide : 0 < MAX_DATA_SIZE) |>.mp hB
    rw [map_range_succ]
    simp [chunk_zero, List.take_of_length_le (Nat.le_of_lt hlt)]
  | succ n ih =>
    intro B hB
    have hge : MAX_DATA_SIZE ≤ B.length := by
      by_contra hlt
      rw [Nat.div_eq_of_lt (by omega)] at hB
      omega
    have hdrop : (B.drop MAX_DATA_SIZE).length / MAX_DATA_SIZE = n := by
      rw [List.length_drop]
      have : B.length = (B.length - MAX_DATA_SIZE) + MAX_DATA_SIZE := by omega
      rw [this, Nat.add_div_right _ (by decide : 0 < MAX_DATA_SIZE)] at hB
      omega
    rw [map_range_succ, List.flatten_cons, chunk_zero]
    have : ((List.range (n + 1)).map fun i => chunk B (i + 1))
        = (List.range (n + 1)).map (chunk (B.drop MAX_DATA_SIZE)) :=
      List.map_congr_left fun i _ => chunk_succ B i
    rw [this, ih _ hdrop, List.take_append_drop]

theorem chunk_length (B : List Nat) (i : Nat) :
    (chunk B i).length = min 512 (B.length - 512 * i) := by
  simp [chunk, MAX_DATA_SIZE]

/-- C1 (RRQ round trip).  For every file content `B` shorter than 65535 * 512
bytes, when the client answers each DATA(n) by ACK(n) and no receive times
out, handle_read_request returns 0 and sends exactly the k = |B| / 512 + 1
datagrams `00 03`, block number i (big-endian), i-th chunk of `B`; the chunks
concatenated are `B`, all but the last have 512 bytes, the last has
|B| mod 512 bytes; the file "hi" yields the single datagram 00 03 00 01 68 69. -/
theorem rrq_round_trip (sendto_ok : Nat → Bool) (ack0 B : List Nat)
    (hok : ∀ n, sendto_ok n = true) (hack : ack0.length = 4)
    (hB : B.length < 65535 * 512) :
    handle_read_request sendto_ok ack0 B
        ((List.range (B.length / 512 + 1)).map fun i => Recv.dgram (ackDgram (i + 1)))
      = ((List.range (B.length / 512 + 1)).map
            fun i => [0, 3, (i + 1) / 256, (i + 1) % 256] ++ chunk B i,
          Status.returned 0)
    ∧ ((List.range (B.length / 512 + 1)).map (chunk B)).flatten = B
    ∧ (∀ i, i + 1 < B.length / 512 + 1 → (chunk B i).length = 512)
    ∧ (chunk B (B.length / 512)).length = B.length % 512
    ∧ handle_read_request sendto_ok ack0 [104, 105] [Recv.dgram [0, 4, 0, 1]]
        = ([[0, 3, 0, 1, 104, 105]], Status.returned 0) := by
  have hrun := rrq_run_acks sendto_ok hok (B.length / 512) B 1 ack0 hack rfl
  have hev : ((List.range (B.length / 512 + 1)).map fun i => Recv.dgram (ackDgram (i + 1)))
      = (List.range (B.length / 512 + 1)).map fun i => Recv.dgram (ackDgram (1 + i)) :=
    List.map_congr_left fun i _ => by rw [Nat.add_comm]
  refine ⟨?_, chunks_join _ B rfl, ?_, ?_, ?_⟩
  · unfold handle_read_request
    simp only []
    rw [hev, hrun, map_range_succ]
    simp only [rrq_send_block, hok, if_true, List.singleton_append]
    congr 1
    congr 1
    apply List.map_congr_left
    intro i hi
    have hi2 : i < B.length / 512 := List.mem_range.mp hi
    have h1 : (1 + 1 + i) % 65536 = i + 1 + 1 := by omega
    simp only [dataDgram, htons, h1, TFTP_OPCODE_DATA]
    simp
    omega
  · intro i hi
    rw [chunk_length]
    omega
  · rw [chunk_length]
    omega
  · have h2 := rrq_run_acks sendto_ok hok 0 [104, 105] 1 ack0 hack (by decide)
    rw [map_range_succ] at h2
    simp only [List.range_zero, List.map_nil] at h2
    unfold handle_read_request
    simp only []
    rw [show ([0, 4, 0, 1] : List Nat) = ackDgram (1 + 0) by decide, h2]
    simp [rrq_send_block, hok, htons, TFTP_OPCODE_DATA, MAX_DATA_SIZE]

/-- Witness of C1: the two-byte file "hi". -/
theorem rrq_round_trip_witness :
    handle_read_request (fun _ => true) [0, 0, 0, 0] [104, 105]
        ((List.range ([104, 105].length / 512 + 1)).map fun i => Recv.dgram (ackDgram (i + 1)))
      = ((List.range ([104, 105].length / 512 + 1)).map
            fun i => [0, 3, (i + 1) / 256, (i + 1) % 256] ++ chunk [104, 105] i,
          Status.returned 0) :=
  (rrq_round_trip (fun _ => true) [0, 0, 0, 0] [104, 105] (fun _ => rfl) rfl (by decide)).1

/-! ## handle_write_request -/

theorem dataDgram_header (e : Nat) (p hdr : List Nat) (h : hdr.length = 4) :
    recvInto hdr (dataDgram e p) = htons TFTP_OPCODE_DATA ++ htons e := by
  simp [recvInto, dataDgram, htons, h]

theorem ntohs_htons (e : Nat) (h : e ≤ 65535) : ntohs (htons e) = e := by
  simp only [ntohs, htons, List.getD_cons_zero, List.getD_cons_succ]
  omega

/-- The awaited block DATA(e), received whole and fitting in the file, is
appended to the file and acknowledged by ACK(e); a short block ends the
transfer with 0. -/
theorem wrq_recv_data (capacity : Nat) (s : WrqState) (p : List Nat)
    (he2 : s.blockNumber ≤ 65535)
    (hh : s.header.length = 4) (ha : s.ackPacket.take 2 = htons TFTP_OPCODE_ACK)
    (hp : p.length ≤ 512) (hc : s.written.length + p.length ≤ capacity) :
    wrq_recv capacity s (.dgram (dataDgram s.blockNumber p)) =
      ([ackDgram s.blockNumber],
        if p.length < 512 then .returned 0 (s.written ++ p)
        else .waiting
          { blockNumber := s.blockNumber + 1
            ackPacket := ackDgram s.blockNumber
            retryCount := 0
            header := htons TFTP_OPCODE_DATA ++ htons s.blockNumber
            written := s.written ++ p }) := by
  have hlen : (dataDgram s.blockNumber p).length = 4 + p.length := by
    simp [dataDgram, htons]; omega
  have hop : (htons TFTP_OPCODE_DATA ++ htons s.blockNumber).take 2 = htons TFTP_OPCODE_DATA := by
    simp [htons]
  have hbn : ((htons TFTP_OPCODE_DATA ++ htons s.blockNumber).drop 2).take 2
      = htons s.blockNumber := by
    simp [htons]
  have hpay : ((dataDgram s.blockNumber p).take MAX_PACKET_SIZE).drop TFTP_HEADER_SIZE = p := by
    rw [List.take_of_length_le (by rw [hlen]; simp [MAX_PACKET_SIZE]; omega)]
    simp [dataDgram, htons, TFTP_HEADER_SIZE]
  simp only [wrq_recv, dataDgram_header _ _ _ hh, hop, hbn, ntohs_htons _ he2, hpay, recvlen,
    hlen, true_and]
  rw [if_neg (by omega), if_pos trivial, if_neg (by simp [TFTP_HEADER_SIZE, MAX_PACKET_SIZE])]
  have hmin : min p.length (capacity - s.written.length) = p.length := by omega
  rw [hmin, if_neg (by omega), List.take_length, ha]
  by_cases hl : p.length < 512
  · rw [if_pos (by simp [MAX_PACKET_SIZE]; omega), if_pos hl]; rfl
  · rw [if_neg (by simp [MAX_PACKET_SIZE]; omega), if_neg hl]; rfl

/-- From a state awaiting block `e`, the blocks DATA(e), DATA(e+1), ... of
which all but the last are full are written in order, each acknowledged in
turn; after a short last block the handler returns 0 right after its ACK,
after a full one it awaits the next block. -/
theorem wrq_run_blocks (capacity : Nat) (last : List Nat) (hl : last.length ≤ 512) :
    ∀ (full : List (List Nat)) (s : WrqState),
      (∀ p ∈ full, p.length = 512) →
      s.blockNumber + full.length ≤ 65535 →
      s.header.length = 4 → s.ackPacket.take 2 = htons TFTP_OPCODE_ACK →
      s.written.length + full.flatten.length + last.length ≤ capacity →
      wrq_run capacity (.waiting s) (dataSeq s.blockNumber (full ++ [last]))
        = (ackSeq s.blockNumber (full.length + 1),
            if last.length < 512 then .returned 0 (s.written ++ full.flatten ++ last)
            else .waiting
              { blockNumber := s.blockNumber + full.length + 1
                ackPacket := ackDgram (s.blockNumber + full.length)
                retryCount := 0
                header := htons TFTP_OPCODE_DATA ++ htons (s.blockNumber + full.length)
                written := s.written ++ full.flatten ++ last }) := by
  intro full
  induction full with
  | nil =>
    intro s _ he2 hh ha hc
    simp only [List.nil_append, dataSeq, wrq_run, List.flatten_nil, List.append_nil,
      List.length_nil, Nat.zero_add, ackSeq, Nat.add_zero]
    rw [wrq_recv_data capacity s last (by simpa using he2) hh ha hl (by simpa using hc)]
    by_cases h : last.length < 512
    · simp [h, wrq_run, map_range_succ]
    · simp [h, wrq_run, map_range_succ]
  | cons p ps ih =>
    intro s hfull he2 hh ha hc
    have hp : p.length = 512 := hfull p (List.mem_cons_self _ _)
    simp only [List.length_cons, List.flatten_cons, List.length_append] at he2 hc
    simp only [List.cons_append, dataSeq, wrq_run]
    rw [wrq_recv_data capacity s p (by omega) hh ha (by omega) (by omega),
      if_neg (by omega)]
    have := ih
      { blockNumber := s.blockNumber + 1
        ackPacket := ackDgram s.blockNumber
        retryCount := 0
        header := htons TFTP_OPCODE_DATA ++ htons s.blockNumber
        written := s.written ++ p }
      (fun q hq => hfull q (List.mem_cons_of_mem _ hq)) (by simp; omega)
      (by simp [htons]) (by simp [ackDgram, htons])
      (by simp only [List.length_append]; omega)
    simp only [List.append_eq] at this ⊢
    rw [this]
    simp only [ackSeq, List.length_cons, List.flatten_cons, List.append_assoc]
    rw [map_range_succ (fun i => ackDgram (s.blockNumber + i))]
    simp only [Nat.add_zero, List.singleton_append]
    have e1 : s.blockNumber + 1 + ps.length = s.blockNumber + (ps.length + 1) := by omega
    rw [e1]
    congr 2
    apply List.map_congr_left
    intro i _
    congr 1
    omega

/-- C2 (WRQ content).  handle_write_request first emits ACK(0); when the
client then delivers DATA(1), ..., DATA(k) in order without timeout, blocks
1..k-1 carrying 512 bytes and block k fewer (k at most 65535, the file able to
hold them), the server has, after each block n, written the first n payloads
and emitted ACK(0), ..., ACK(n); after block k the file holds exactly the
concatenation of the k payloads and the handler returns 0 right after
ACK(k). -/
theorem wrq_content (capacity : Nat) (header0 : List Nat) (full : List (List Nat))
    (last : List Nat) (hh : header0.length = 4) (hfull : ∀ p ∈ full, p.length = 512)
    (hl : last.length < 512) (hk : full.length + 1 ≤ 65535)
    (hc : full.flatten.length + last.length ≤ capacity) :
    handle_write_request capacity header0 [] =
        ([ackDgram 0],
          .waiting
            { blockNumber := 1, ackPacket := ackDgram 0, retryCount := 0,
              header := header0, written := [] })
    ∧ (∀ j, (hj : j < full.length) →
        handle_write_request capacity header0 (dataSeq 1 (full.take (j + 1))) =
          (ackDgram 0 :: ackSeq 1 (j + 1),
            .waiting
              { blockNumber := j + 2, ackPacket := ackDgram (j + 1), retryCount := 0,
                header := htons TFTP_OPCODE_DATA ++ htons (j + 1),
                written := (full.take (j + 1)).flatten }))
    ∧ handle_write_request capacity header0 (dataSeq 1 (full ++ [last])) =
        (ackDgram 0 :: ackSeq 1 (full.length + 1), .returned 0 (full.flatten ++ last)) := by
  have h0 : wrq_init header0 =
      ([ackDgram 0],
        .waiting
          { blockNumber := 1, ackPacket := ackDgram 0, retryCount := 0,
            header := header0, written := [] }) := rfl
  refine ⟨rfl, ?_, ?_⟩
  · intro j hj
    have hlen : (full.take j).length = j := by
      rw [List.length_take]; omega
    have hsub : ∀ p ∈ full.take j, p.length = 512 :=
      fun p hp => hfull p (List.mem_of_mem_take hp)
    have hget : full[j].length = 512 := hfull _ (List.getElem_mem _)
    have hsplit : full.flatten = (full.take (j + 1)).flatten ++ (full.drop (j + 1)).flatten := by
      rw [← List.flatten_append, List.take_append_drop]
    have hcap : (full.take (j + 1)).flatten.length ≤ full.flatten.length := by
      rw [hsplit, List.length_append]; omega
    have hsum : (full.take (j + 1)).flatten.length
        = (full.take j).flatten.length + full[j].length := by
      rw [← List.take_concat_get' full j hj]
      simp only [List.flatten_append, List.length_append, List.flatten_cons, List.flatten_nil,
        List.append_nil]
    have hrun := wrq_run_blocks capacity full[j] (by omega) (full.take j)
      { blockNumber := 1, ackPacket := ackDgram 0, retryCount := 0,
        header := header0, written := [] }
      hsub (by simp only [hlen]; omega) hh (by simp [ackDgram, htons])
      (by simp only [List.length_nil, Nat.zero_add]; omega)
    rw [List.take_concat_get' full j hj] at hrun
    simp only [hlen] at hrun
    unfold handle_write_request
    simp only [h0]
    rw [hrun, if_neg (by omega)]
    have hfl : (full.take (j + 1)).flatten = (full.take j).flatten ++ full[j] := by
      rw [← List.take_concat_get' full j hj]
      simp only [List.flatten_append, List.flatten_cons, List.flatten_nil, List.append_nil]
    simp only [List.singleton_append, List.nil_append, hfl, Nat.add_comm 1 j]
  · have hrun := wrq_run_blocks capacity last (by omega) full
      { blockNumber := 1, ackPacket := ackDgram 0, retryCount := 0,
        header := header0, written := [] }
      hfull (by simp only []; omega) hh (by simp [ackDgram, htons])
      (by simpa using hc)
    simp only [] at hrun
    unfold handle_write_request
    simp only [h0]
    rw [hrun, if_pos hl]
    simp

/-- Witness of C2: the single short block "hi". -/
theorem wrq_content_witness :
    handle_write_request 1000 [0, 0, 0, 0] (dataSeq 1 ([] ++ [[104, 105]])) =
      (ackDgram 0 :: ackSeq 1 (([] : List (List Nat)).length + 1),
        .returned 0 (([] : List (List Nat)).flatten ++ [104, 105])) :=
  (wrq_content 1000 [0, 0, 0, 0] [] [104, 105] rfl
    (by intro p hp; cases hp) (by decide) (by decide) (by decide)).2.2

/-! ## handle_read_request: timeouts -/

theorem rrq_run_returned (sendto_ok : Nat → Bool) (r : Int) (evs : List Recv) :
    rrq_run sendto_ok (.returned r) evs = ([], .returned r) := by
  cases evs <;> rfl

/-- While the handler stays on one block, what it has sent is one copy of
the DATA packet per timeout, and the retry counter counts the timeouts. -/
theorem rrq_same_block (sendto_ok : Nat → Bool) :
    ∀ (evs : List Recv) (s : RrqState) (out : List (List Nat)) (s2 : RrqState),
      rrq_run sendto_ok (.waiting s) evs = (out, .waiting s2) →
      s.block_num ≤ s2.block_num ∧
      (s2.block_num = s.block_num →
        out = List.replicate (evs.count Recv.timeout) s.data_packet
        ∧ s2.retryCount = s.retryCount + evs.count Recv.timeout
        ∧ s2.data_packet = s.data_packet
        ∧ s2.retryCount ≤ max s.retryCount MAX_RETRIES) := by
  intro evs
  induction evs with
  | nil =>
    intro s out s2 h
    simp only [rrq_run, Prod.mk.injEq, Status.waiting.injEq] at h
    obtain ⟨rfl, rfl⟩ := h
    simp
  | cons ev evs ih =>
    intro s out s2 h
    cases ev with
    | timeout =>
      simp only [rrq_run, rrq_recv] at h
      by_cases hr : s.retryCount < MAX_RETRIES
      · simp only [hr, if_true, Prod.mk.injEq] at h
        obtain ⟨h1, h2⟩ := h
        have hrun : rrq_run sendto_ok
            (.waiting { s with retryCount := s.retryCount + 1 }) evs
            = ((rrq_run sendto_ok (.waiting { s with retryCount := s.retryCount + 1 }) evs).1,
                .waiting s2) := by
          rw [← h2]
        obtain ⟨hle, himp⟩ := ih _ _ _ hrun
        refine ⟨hle, fun heq => ?_⟩
        obtain ⟨e1, e2, e3, e4⟩ := himp heq
        simp only [] at e1 e2 e3 e4
        refine ⟨?_, ?_, e3, ?_⟩
        · rw [← h1, e1]
          simp [List.replicate_succ]
        · rw [e2]; simp; omega
        · simp only [MAX_RETRIES] at hr e4 ⊢; omega
      · simp only [hr, if_false, rrq_run_returned] at h
        simp at h
    | dgram d =>
      simp only [rrq_run, rrq_recv] at h
      split at h
      · split at h
        · simp only [rrq_send_block] at h
          split at h
          · simp only [Prod.mk.injEq] at h
            obtain ⟨_, h2⟩ := h
            have hrun := ih _ _ s2 (Prod.ext rfl h2)
            simp only [] at hrun
            exact ⟨by omega, fun heq => by omega⟩
          · simp [rrq_run_returned] at h
        · simp [rrq_run_returned] at h
      · simp only [Prod.mk.injEq, List.nil_append] at h
        obtain ⟨h1, h2⟩ := h
        obtain ⟨hle, himp⟩ := ih _ _ s2 (Prod.ext rfl h2)
        refine ⟨hle, fun heq => ?_⟩
        obtain ⟨e1, e2, e3, e4⟩ := himp heq
        simp only [] at e1 e2 e3 e4
        have hc : List.count Recv.timeout (Recv.dgram d :: evs)
            = List.count Recv.timeout evs := by simp
        rw [hc]
        exact ⟨h1 ▸ e1, e2, e3, e4⟩

theorem rrq_run_timeouts (sendto_ok : Nat → Bool) (s : RrqState) :
    ∀ (t : Nat), s.retryCount + t ≤ MAX_RETRIES →
      rrq_run sendto_ok (.waiting s) (List.replicate t Recv.timeout)
        = (List.replicate t s.data_packet,
            .waiting { s with retryCount := s.retryCount + t }) := by
  intro t
  induction t generalizing s with
  | zero => intro _; rfl
  | succ t ih =>
    intro h
    have hr : s.retryCount < MAX_RETRIES := by omega
    simp only [List.replicate_succ, rrq_run, rrq_recv, hr, if_true]
    rw [ih { s with retryCount := s.retryCount + 1 } (by simp only []; omega)]
    simp only [List.singleton_append, Prod.mk.injEq, true_and, Status.waiting.injEq]
    congr 1
    omega

theorem rrq_run_exhaust (sendto_ok : Nat → Bool) (m : Nat) :
    ∀ (t : Nat) (s : RrqState), s.retryCount + t = MAX_RETRIES →
      rrq_run sendto_ok (.waiting s) (List.replicate (t + 1 + m) Recv.timeout)
        = (List.replicate t s.data_packet
            ++ [send_error_packet NotDefined (get_error_message NotDefined) none],
            .returned (-1)) := by
  intro t
  induction t with
  | zero =>
    intro s h
    have hr : ¬ s.retryCount < MAX_RETRIES := by omega
    rw [show 0 + 1 + m = m + 1 by omega]
    simp only [List.replicate_succ, rrq_run, rrq_recv, hr, if_false, rrq_run_returned]
    simp
  | succ t ih =>
    intro s h
    have hr : s.retryCount < MAX_RETRIES := by omega
    rw [show t + 1 + 1 + m = (t + 1 + m) + 1 by omega]
    simp only [List.replicate_succ, rrq_run, rrq_recv, hr, if_true]
    rw [ih { s with retryCount := s.retryCount + 1 } (by simp only []; omega)]
    simp

/-- C10 (RRQ give-up).  When every receive times out, handle_read_request
transmits DATA(1) five times in all (after t <= 4 timeouts it has sent t + 1
identical copies and is still waiting), and on the fifth timeout it sends one
ERROR packet with code 0 and returns -1.  More generally, for any block n:
the first send of DATA(n) leaves the retry counter at 0 and the packet stored;
in every state with the counter below MAX_RETRIES = 4 a timeout retransmits
the stored packet unchanged, stays on the block and adds one to the counter;
in every state with the counter at 4 a timeout sends the ERROR packet and
returns -1; a datagram that is not the awaited ACK sends nothing and leaves
counter and packet as they are.  Hence from the first send of any block, t <=
4 timeouts retransmit the same DATA t times, the fifth gives up, and as long
as the handler is on that block, whatever else is received, it has sent
exactly one copy per timeout, at most 4. -/
theorem rrq_give_up (sendto_ok : Nat → Bool) (ack0 B : List Nat) (hok : sendto_ok 1 = true) :
    (∀ t, t ≤ 4 →
      handle_read_request sendto_ok ack0 B (List.replicate t Recv.timeout)
        = (List.replicate (t + 1) (dataDgram 1 (chunk B 0)),
            .waiting
              { file := B.drop MAX_DATA_SIZE, block_num := 1,
                num_bytes_read := (chunk B 0).length,
                data_packet := dataDgram 1 (chunk B 0),
                retryCount := t, ack_packet := ack0 }))
    ∧ (∀ m, handle_read_request sendto_ok ack0 B (List.replicate (5 + m) Recv.timeout)
        = (List.replicate 5 (dataDgram 1 (chunk B 0))
            ++ [send_error_packet NotDefined (get_error_message NotDefined) none],
            .returned (-1)))
    ∧ (send_error_packet NotDefined (get_error_message NotDefined) none).take 4 = [0, 5, 0, 0]
    ∧ MAX_RETRIES = 4
    ∧ (∀ (file : List Nat) (n : Nat) (ack : List Nat), sendto_ok n = true →
        rrq_send_block sendto_ok file n ack
          = ([dataDgram n (file.take MAX_DATA_SIZE)],
              .waiting
                { file := file.drop MAX_DATA_SIZE, block_num := n,
                  num_bytes_read := (file.take MAX_DATA_SIZE).length,
                  data_packet := dataDgram n (file.take MAX_DATA_SIZE),
                  retryCount := 0, ack_packet := ack }))
    ∧ (∀ s : RrqState, s.retryCount < MAX_RETRIES →
        rrq_recv sendto_ok s Recv.timeout
          = ([s.data_packet], .waiting { s with retryCount := s.retryCount + 1 }))
    ∧ (∀ s : RrqState, s.retryCount = MAX_RETRIES →
        rrq_recv sendto_ok s Recv.timeout
          = ([send_error_packet NotDefined (get_error_message NotDefined) none],
              .returned (-1)))
    ∧ (∀ (s : RrqState) (d : List Nat),
        ¬ (0 < recvlen 4 d ∧ (recvInto s.ack_packet d).take 2 = htons TFTP_OPCODE_ACK
            ∧ (recvInto s.ack_packet d).drop 2 = htons s.block_num) →
        rrq_recv sendto_ok s (Recv.dgram d)
          = ([], .waiting { s with ack_packet := recvInto s.ack_packet d }))
    ∧ (∀ (s : RrqState) (t : Nat), s.retryCount = 0 → t ≤ 4 →
        rrq_run sendto_ok (.waiting s) (List.replicate t Recv.timeout)
          = (List.replicate t s.data_packet, .waiting { s with retryCount := t }))
    ∧ (∀ (s : RrqState) (m : Nat), s.retryCount = 0 →
        rrq_run sendto_ok (.waiting s) (List.replicate (5 + m) Recv.timeout)
          = (List.replicate 4 s.data_packet
              ++ [send_error_packet NotDefined (get_error_message NotDefined) none],
              .returned (-1)))
    ∧ (∀ (s s2 : RrqState) (evs : List Recv) (out : List (List Nat)),
        s.retryCount = 0 →
        rrq_run sendto_ok (.waiting s) evs = (out, .waiting s2) →
        s2.block_num = s.block_num →
        out = List.replicate (evs.count Recv.timeout) s.data_packet
        ∧ evs.count Recv.timeout ≤ 4
        ∧ s2.data_packet = s.data_packet
        ∧ s2.retryCount = evs.count Recv.timeout) := by
  have hinit : rrq_send_block sendto_ok B 1 ack0 =
      ([dataDgram 1 (chunk B 0)],
        .waiting
          { file := B.drop MAX_DATA_SIZE, block_num := 1,
            num_bytes_read := (chunk B 0).length,
            data_packet := dataDgram 1 (chunk B 0),
            retryCount := 0, ack_packet := ack0 }) := by
    simp only [rrq_send_block, hok, if_true, chunk_zero, dataDgram]
  refine ⟨?_, ?_, by decide, rfl, ?_, ?_, ?_, ?_, ?_, ?_, ?_⟩
  · intro t ht
    unfold handle_read_request
    simp only [hinit]
    rw [rrq_run_timeouts _ _ t (by simp only [MAX_RETRIES]; omega)]
    simp [List.replicate_succ]
  · intro m
    unfold handle_read_request
    simp only [hinit]
    rw [show 5 + m = 4 + 1 + m by omega,
      rrq_run_exhaust sendto_ok m 4
        { file := B.drop MAX_DATA_SIZE, block_num := 1,
          num_bytes_read := (chunk B 0).length,
          data_packet := dataDgram 1 (chunk B 0),
          retryCount := 0, ack_packet := ack0 } rfl]
    simp [List.replicate_succ]
  · intro file n ack hn
    simp only [rrq_send_block, hn, if_true, dataDgram]
  · intro s hs
    simp only [rrq_recv, hs, if_true]
  · intro s hs
    have : ¬ s.retryCount < MAX_RETRIES := by omega
    simp only [rrq_recv, this, if_false]
  · intro s d hc
    simp only [rrq_recv, if_neg hc]
  · intro s t h0 ht
    rw [rrq_run_timeouts sendto_ok s t (by rw [h0]; simp only [MAX_RETRIES]; omega), h0,
      Nat.zero_add]
  · intro s m h0
    rw [show 5 + m = 4 + 1 + m by omega,
      rrq_run_exhaust sendto_ok m 4 s (by rw [h0]; rfl)]
  · intro s s2 evs out h0 hrun heq
    obtain ⟨_, himp⟩ := rrq_same_block sendto_ok evs s out s2 hrun
    obtain ⟨e1, e2, e3, e4⟩ := himp heq
    rw [h0] at e2 e4
    simp only [Nat.zero_add, MAX_RETRIES] at e2 e4
    exact ⟨e1, by omega, e3, e2⟩

set_option maxRecDepth 100000 in
/-- Witness of C10: a two-byte file and a peer that never answers; the second
block of a 600-byte file, retransmitted on a timeout; and a run on block 1
with two timeouts around a stray datagram. -/
theorem rrq_give_up_witness :
    handle_read_request (fun _ => true) [0, 0, 0, 0] [104, 105] (List.replicate (5 + 0) Recv.timeout)
        = (List.replicate 5 (dataDgram 1 (chunk [104, 105] 0))
            ++ [send_error_packet NotDefined (get_error_message NotDefined) none],
            .returned (-1))
    ∧ rrq_recv (fun _ => true)
          { file := [], block_num := 2, num_bytes_read := 88,
            data_packet := dataDgram 2 (List.replicate 88 7), retryCount := 3,
            ack_packet := ackDgram 1 } Recv.timeout
        = ([dataDgram 2 (List.replicate 88 7)],
            .waiting
              { file := [], block_num := 2, num_bytes_read := 88,
                data_packet := dataDgram 2 (List.replicate 88 7), retryCount := 3 + 1,
                ack_packet := ackDgram 1 })
    ∧ [dataDgram 1 [104, 105], dataDgram 1 [104, 105]]
        = List.replicate
            ([Recv.timeout, Recv.dgram [0, 4, 0, 9], Recv.timeout].count Recv.timeout)
            (dataDgram 1 [104, 105]) :=
  have h := rrq_give_up (fun _ => true) [0, 0, 0, 0] [104, 105] rfl
  ⟨h.2.1 0,
    h.2.2.2.2.2.1
      { file := [], block_num := 2, num_bytes_read := 88,
        data_packet := dataDgram 2 (List.replicate 88 7), retryCount := 3,
        ack_packet := ackDgram 1 } (by decide),
    (h.2.2.2.2.2.2.2.2.2.2
      { file := [], block_num := 1, num_bytes_read := 2,
        data_packet := dataDgram 1 [104, 105], retryCount := 0, ack_packet := [0, 0, 0, 0] }
      { file := [], block_num := 1, num_bytes_read := 2,
        data_packet := dataDgram 1 [104, 105], retryCount := 2, ack_packet := [0, 4, 0, 9] }
      [Recv.timeout, Recv.dgram [0, 4, 0, 9], Recv.timeout]
      [dataDgram 1 [104, 105], dataDgram 1 [104, 105]]
      rfl (by decide) rfl).1⟩

/-! ## handle_read_request: lock-step -/

/-- A datagram of at least four bytes whose first four bytes are not those
of the awaited ACK leaves the handler waiting on the same block and sends
nothing. -/
theorem rrq_recv_whole_datagram (sendto_ok : Nat → Bool) (s : RrqState) (d : List Nat)
    (hs : s.ack_packet.length = 4) (hd : 4 ≤ d.length)
    (hne : d.take 4 ≠ ackDgram s.block_num) :
    rrq_recv sendto_ok s (.dgram d) = ([], .waiting { s with ack_packet := d.take 4 }) := by
  have hbuf : recvInto s.ack_packet d = d.take 4 := by
    unfold recvInto
    rw [hs, List.drop_eq_nil_of_le (by omega), List.append_nil]
  have hcond : ¬ (0 < recvlen 4 d ∧ (d.take 4).take 2 = htons TFTP_OPCODE_ACK
      ∧ (d.take 4).drop 2 = htons s.block_num) := by
    rintro ⟨_, h1, h2⟩
    apply hne
    rw [← List.take_append_drop 2 (d.take 4), h1, h2]
    rfl
  simp only [rrq_recv, hbuf, if_neg hcond]

set_option maxRecDepth 100000 in
/-- C5 (RRQ lock-step), evaluation at the failing input.  The file has 512
bytes.  After DATA(1) the handler receives a four-byte datagram `00 05 00 01`
(not an ACK), then the two-byte datagram `00 04`: recvfrom overwrites only the
first two bytes of ack_packet, the test `recvlen > 0 && opcode == ACK &&
block_num == 1` succeeds on the stale bytes, and DATA(2) is sent although no
ACK with block number 1 was ever received. -/
theorem rrq_short_datagram_advances :
    (handle_read_request (fun _ => true) [0, 0, 0, 0] (List.replicate 512 0)
        [Recv.dgram [0, 5, 0, 1], Recv.dgram [0, 4]]).1
      = [dataDgram 1 (List.replicate 512 0), dataDgram 2 []]
    ∧ Recv.dgram (ackDgram 1) ∉ [Recv.dgram [0, 5, 0, 1], Recv.dgram [0, 4]] := by
  constructor
  · rfl
  · decide

/-! ## File registry -/

set_option maxRecDepth 100000 in
/-- C3 (reader/writer exclusion), evaluation at the failing schedule.
Sessions 0 and 3 write file "f", sessions 1 and 2 read it.  Session 0 enters
its critical section; 1, 2 and 3 start and wait; 0 ends (rw_mutex unlocked,
broadcast) and runs delete_fileEntry; 3 wakes, takes rw_mutex and enters its
critical section; 1 wakes and leaves the wait loop by `num_readers > 1`
without testing rw_mutex.  In the state reached the writer 3 is inside its
critical section, the reader 1 has returned from sync_start_read and not
called sync_end_read, and actif_readers of the entry is 1. -/
theorem writer_and_reader_inside :
    ∃ st, run (initSync [(.writer, [102]), (.reader, [102]), (.reader, [102]), (.writer, [102])])
              [0, 1, 2, 3, 0, 0, 3, 1] = some st
      ∧ st.sessions.get? 3 = some { kind := .writer, filename := [102], phase := .inside }
      ∧ st.sessions.get? 1 = some { kind := .reader, filename := [102], phase := .inside }
      ∧ (entryOf [102] st.file_list).map (fun e => e.actif_readers) = some 1
      ∧ (entryOf [102] st.file_list).map (fun e => e.rw_mutex) = some true := by
  refine ⟨_, rfl, ?_, ?_, ?_, ?_⟩ <;> rfl

set_option maxRecDepth 100000 in
/-- C6 (file registry membership), evaluation at the failing schedule.
Session 0 reads "a", session 1 reads "b"; both start, then session 0 ends and
runs delete_fileEntry.  Slot 0 is then NULL, the entry of "b" is in slot 1 and
num_files is 1: session 1 is still running on "b", yet get_fileEntry("b")
reads the NULL slot 0 and does not reach the entry, so the next step of
session 1 (sync_end_read) faults. -/
theorem lookup_reads_empty_slot :
    ∃ st, run (initSync [(.reader, [97]), (.reader, [98])]) [0, 1, 0, 0] = some st
      ∧ st.sessions.get? 1 = some { kind := .reader, filename := [98], phase := .inside }
      ∧ st.file_list.files.take 2
          = [none, some { filename := [98], rw_mutex := true, actif_readers := 1,
                          num_readers := 1, num_writers := 0 }]
      ∧ st.file_list.num_files = 1
      ∧ get_fileEntry [98] st.file_list = .nullDeref
      ∧ step st 1 = none := by
  refine ⟨_, rfl, ?_, ?_, ?_, ?_, ?_⟩ <;> rfl

/-! ## Client registry, dispatcher and worker -/

set_option maxRecDepth 100000 in
/-- C7 (client registry lifetime), evaluation at the failing inputs.  A
session registered by the dispatcher whose worker ends on the unsupported
opcode path (opcode 9), on the empty file name path, or on the file open
failure path (RRQ of an absent file) reaches pthread_exit without calling
supprimer_client: the registry still holds the session after the worker has
ended. -/
theorem early_exit_keeps_client :
    registeredAfterExit (requestDgram 9 (cbytes "f1") (cbytes "octet"))
    ∧ registeredAfterExit (requestDgram 1 [] (cbytes "netascii"))
    ∧ registeredAfterExit (requestDgram 1 (cbytes "f1") (cbytes "octet")) := by
  unfold registeredAfterExit
  decide

set_option maxRecDepth 100000 in
/-- C8 (deduplication key), evaluation at the failing input.  The peer has a
registered session whose initial packet is RRQ("f1", "octet"); the datagram
RRQ("f2", "octet") from the same address has different bytes, yet get_client
returns the registered session (strcmp stops at the first byte, the NUL high
byte of the opcode) and main drops the datagram as a duplicate. -/
theorem different_request_dropped :
    main_step [] peerA (requestDgram 1 (cbytes "f1") (cbytes "octet")) 5
        = .accepted
            { socket_fd := 5, client_addr := peerA,
              packet := requestDgram 1 (cbytes "f1") (cbytes "octet") }
            [some { socket_fd := 5, client_addr := peerA,
                    packet := requestDgram 1 (cbytes "f1") (cbytes "octet") }]
    ∧ requestDgram 1 (cbytes "f2") (cbytes "octet")
        ≠ requestDgram 1 (cbytes "f1") (cbytes "octet")
    ∧ get_client
        [some { socket_fd := 5, client_addr := peerA,
                packet := requestDgram 1 (cbytes "f1") (cbytes "octet") }]
        peerA (requestDgram 1 (cbytes "f2") (cbytes "octet")) = .found 0
    ∧ main_step
        [some { socket_fd := 5, client_addr := peerA,
                packet := requestDgram 1 (cbytes "f1") (cbytes "octet") }]
        peerA (requestDgram 1 (cbytes "f2") (cbytes "octet")) 6 = .droppedDuplicate := by
  decide

set_option maxRecDepth 100000 in
/-- C9 (bad mode), evaluation at the failing input.  For RRQ("f1", "binary")
the worker sends the ERROR packet with code 0 and then goes on: its next call
is SYNC_START on "f1" (whatever `client->file` holds), and when
`client->file` happens to be NULL it sends a second ERROR packet, with code
1, before SYNC_END. -/
theorem bad_mode_goes_on :
    (∀ file0_null fopen_w_ok : Bool,
      (handleClient
          { socket_fd := 5, client_addr := peerA,
            packet := requestDgram 1 (cbytes "f1") (cbytes "binary") }
          file0_null fopen_w_ok silentNet (fun _ => none) []).calls.take 2
        = [.sendto (send_error_packet NotDefined (get_error_message NotDefined)
              (some (cbytes "Mode de transfert non reconnu"))),
           .SYNC_START .reader (cbytes "f1")])
    ∧ (handleClient
          { socket_fd := 5, client_addr := peerA,
            packet := requestDgram 1 (cbytes "f1") (cbytes "binary") }
          true true silentNet (fun _ => none) []).calls
        = [.sendto (send_error_packet NotDefined (get_error_message NotDefined)
              (some (cbytes "Mode de transfert non reconnu"))),
           .SYNC_START .reader (cbytes "f1"),
           .sendto (send_error_packet FileNotFound (get_error_message FileNotFound) none),
           .SYNC_END .reader (cbytes "f1")] := by
  decide

/-! ## Atomic write policy -/

theorem cstr_cons (a : Nat) (l : List Nat) (ha : a ≠ 0) : cstr (a :: l) = a :: cstr l := by
  simp [cstr, List.takeWhile_cons, ha]

theorem cstr_append_nul (F rest : List Nat) (h : 0 ∉ F) : cstr (F ++ 0 :: rest) = F := by
  induction F with
  | nil => simp [cstr]
  | cons a F ih =>
    have ha : a ≠ 0 := fun e => h (e ▸ List.mem_cons_self _ _)
    have hF : 0 ∉ F := fun m => h (List.mem_cons_of_mem _ m)
    rw [List.cons_append, cstr_cons _ _ ha, ih hF]

theorem cstr_of_no_nul (m : List Nat) (h : 0 ∉ m) : cstr m = m := by
  induction m with
  | nil => rfl
  | cons a m ih =>
    have ha : a ≠ 0 := fun e => h (e ▸ List.mem_cons_self _ _)
    have hm : 0 ∉ m := fun x => h (List.mem_cons_of_mem _ x)
    rw [cstr_cons _ _ ha, ih hm]

theorem request_filename (op : Nat) (F mode : List Nat) (h : 0 ∉ F) :
    cstr ((requestDgram op F mode).drop 2) = F := by
  have : (requestDgram op F mode).drop 2 = F ++ 0 :: (mode ++ [0]) := by
    simp [requestDgram, htons]
  rw [this, cstr_append_nul F _ h]

theorem request_mode (op : Nat) (F mode : List Nat) (h : 0 ∉ mode) :
    cstr ((requestDgram op F mode).drop (2 + F.length + 1)) = mode := by
  have : (requestDgram op F mode).drop (2 + F.length + 1) = mode ++ 0 :: [] := by
    have e : requestDgram op F mode = (htons op ++ F ++ [0]) ++ (mode ++ [0]) := by
      simp [requestDgram]
    rw [e, List.drop_left' (by simp [htons]; omega)]
  rw [this, cstr_append_nul mode _ h]

theorem strcasecmp_length (m lit : List Nat) (hm : 0 ∉ m) (hl : 0 ∉ lit)
    (h : strcasecmp_eq m lit = true) : m.length = lit.length := by
  simp only [strcasecmp_eq, cstr_of_no_nul m hm, cstr_of_no_nul lit hl, beq_iff_eq] at h
  have := congrArg List.length h
  simpa using this

theorem temp_name_ne (F : List Nat) : get_temp_file_name F ≠ F := by
  intro h
  have := congrArg List.length h
  simp [get_temp_file_name, cbytes] at this

/-- On a well-formed WRQ whose temp file can be opened, handleClient runs
SYNC_START, opens the temp file (created empty) and continues with the
transfer and the cleanup. -/
theorem handleClient_wrq (client : TFTP_Client) (F mode : List Nat) (file0_null : Bool)
    (net : Net) (fs : FS) (clientsList : TFTP_ClientsList)
    (hpkt : client.packet = requestDgram TFTP_OPCODE_WRQ F mode)
    (hF0 : 0 ∉ F) (hFne : F ≠ []) (hFlen : F.length < 512) (hm0 : 0 ∉ mode)
    (hmode : strcasecmp_eq mode (cbytes "netascii") = true
      ∨ strcasecmp_eq mode (cbytes "octet") = true) :
    ∃ wmode,
      handleClient client file0_null true net fs clientsList
        = worker_write F client net
            [.SYNC_START .writer F, .fopen (get_temp_file_name F) wmode]
            (fs.write (get_temp_file_name F) []) clientsList := by
  have hop : ntohs ((requestDgram TFTP_OPCODE_WRQ F mode).take 2) = 2 := by
    simp [requestDgram, htons, ntohs, TFTP_OPCODE_WRQ]
  have hmlen : mode.length < 10 := by
    rcases hmode with h | h
    · rw [strcasecmp_length mode _ hm0 (by decide) h]; decide
    · rw [strcasecmp_length mode _ hm0 (by decide) h]; decide
  have hFpos : F.length ≠ 0 := fun h => hFne (List.length_eq_zero.mp h)
  have hbad : ¬ (strcasecmp_eq mode (cbytes "netascii") = false
      ∧ strcasecmp_eq mode (cbytes "octet") = false) := by
    rcases hmode with h | h <;> simp [h]
  have hmpos : mode.length ≠ 0 := by
    rcases hmode with h | h
    · rw [strcasecmp_length mode _ hm0 (by decide) h]; decide
    · rw [strcasecmp_length mode _ hm0 (by decide) h]; decide
  refine ⟨if strcasecmp_eq mode (cbytes "netascii") = true then cbytes "w" else cbytes "wb", ?_⟩
  unfold handleClient
  simp only [hpkt, hop, request_filename _ F mode hF0, request_mode _ F mode hm0]
  rw [if_neg (by simp [TFTP_OPCODE_RRQ, TFTP_OPCODE_WRQ])]
  rw [if_neg (by omega), if_neg hFpos, if_neg (by omega), if_neg hbad]
  simp [TFTP_OPCODE_RRQ, hmpos, hbad]

/-- The file system the last lines of handleClient leave when the session is
registered: the fclose of supprimer_client flushes the stream into the file it
is linked to. -/
theorem worker_finish_fs (kind : Kind) (filename : List Nat) (client : TFTP_Client)
    (calls : List Call) (fs : FS) (clientsList : TFTP_ClientsList)
    (stream : Option (List Nat × List Nat)) (i : Nat)
    (hreg : supprimer_client_scan client.socket_fd clientsList 0 = .found i) :
    (worker_finish kind filename client calls fs clientsList stream).fs
        = (match stream with
          | some (name, content) => fs.write name content
          | none => fs)
    ∧ (worker_finish kind filename client calls fs clientsList stream).ending = .exited := by
  unfold worker_finish supprimer_client
  rw [hreg]
  cases stream <;> exact ⟨rfl, rfl⟩

/-- C4 (atomic-write policy).  The file system is a map from names to
contents and T = F ++ ".tmp".  For a WRQ on F of a registered session (main
registers it before it starts the worker) whose temp file was opened and whose
transfer handler returned `status` after fwrite accepted the bytes `written`,
the worker reaches pthread_exit and the file system it leaves, after the
fclose of supprimer_client, satisfies: when status is 0 and the device holds
the bytes, F holds `written` and T is absent; when status is not 0, T is
absent and F holds what it held before the session (or is absent as before);
in both cases every name other than F and T is unchanged. -/
theorem atomic_write_policy (client : TFTP_Client) (F mode : List Nat) (file0_null : Bool)
    (net : Net) (fs : FS) (clientsList : TFTP_ClientsList) (status : Int) (written : List Nat)
    (i : Nat)
    (hpkt : client.packet = requestDgram TFTP_OPCODE_WRQ F mode)
    (hF0 : 0 ∉ F) (hFne : F ≠ []) (hFlen : F.length < 512) (hm0 : 0 ∉ mode)
    (hmode : strcasecmp_eq mode (cbytes "netascii") = true
      ∨ strcasecmp_eq mode (cbytes "octet") = true)
    (hreg : supprimer_client_scan client.socket_fd clientsList 0 = .found i)
    (hret : (handle_write_request net.capacity net.buffer0 net.events).2
      = .returned status written) :
    (handleClient client file0_null true net fs clientsList).ending = .exited
    ∧ (status = 0 → written.length ≤ net.device →
      (handleClient client file0_null true net fs clientsList).fs F = some written
      ∧ (handleClient client file0_null true net fs clientsList).fs (get_temp_file_name F)
          = none)
    ∧ (status ≠ 0 →
      (handleClient client file0_null true net fs clientsList).fs (get_temp_file_name F) = none
      ∧ (handleClient client file0_null true net fs clientsList).fs F = fs F)
    ∧ (∀ n, n ≠ F → n ≠ get_temp_file_name F →
      (handleClient client file0_null true net fs clientsList).fs n = fs n) := by
  obtain ⟨wmode, h⟩ := handleClient_wrq client F mode file0_null net fs clientsList
    hpkt hF0 hFne hFlen hm0 hmode
  have hT : get_temp_file_name F ≠ F := temp_name_ne F
  have hT2 : F ≠ get_temp_file_name F := fun e => hT e.symm
  rw [h]
  unfold worker_write
  simp only [hret]
  by_cases hs : status = 0
  · rw [if_pos hs]
    by_cases hex : ((fs.write (get_temp_file_name F) []).write (get_temp_file_name F)
        (written.take (min net.flushed net.device)) F).isSome = true
    · rw [if_pos hex]
      obtain ⟨hfs, hend⟩ := worker_finish_fs .writer F client
        ([Call.SYNC_START .writer F, .fopen (get_temp_file_name F) wmode]
          ++ [.selectedHandler .writer]
          ++ (handle_write_request net.capacity net.buffer0 net.events).1.map Call.sendto
          ++ [.remove F, .rename (get_temp_file_name F) F])
        ((((fs.write (get_temp_file_name F) []).write (get_temp_file_name F)
          (written.take (min net.flushed net.device))).remove F).rename
            (get_temp_file_name F) F)
        clientsList (some (F, written.take net.device)) i hreg
      rw [hfs]
      refine ⟨hend, fun _ hfit => ⟨?_, ?_⟩, fun hne => absurd hs hne, fun n h1 h2 => ?_⟩
      · simp [FS.write, List.take_of_length_le hfit]
      · simp [FS.rename, FS.remove, FS.write, hT]
      · simp [FS.rename, FS.remove, FS.write, hT, h1, h2]
    · rw [if_neg hex]
      obtain ⟨hfs, hend⟩ := worker_finish_fs .writer F client
        ([Call.SYNC_START .writer F, .fopen (get_temp_file_name F) wmode]
          ++ [.selectedHandler .writer]
          ++ (handle_write_request net.capacity net.buffer0 net.events).1.map Call.sendto
          ++ [.rename (get_temp_file_name F) F])
        (((fs.write (get_temp_file_name F) []).write (get_temp_file_name F)
          (written.take (min net.flushed net.device))).rename (get_temp_file_name F) F)
        clientsList (some (F, written.take net.device)) i hreg
      rw [hfs]
      refine ⟨hend, fun _ hfit => ⟨?_, ?_⟩, fun hne => absurd hs hne, fun n h1 h2 => ?_⟩
      · simp [FS.write, List.take_of_length_le hfit]
      · simp [FS.rename, FS.write, hT]
      · simp [FS.rename, FS.write, hT, h1, h2]
  · rw [if_neg hs]
    obtain ⟨hfs, hend⟩ := worker_finish_fs .writer F client
      ([Call.SYNC_START .writer F, .fopen (get_temp_file_name F) wmode]
        ++ [.selectedHandler .writer]
        ++ (handle_write_request net.capacity net.buffer0 net.events).1.map Call.sendto
        ++ [.remove (get_temp_file_name F)])
      (((fs.write (get_temp_file_name F) []).write (get_temp_file_name F)
        (written.take (min net.flushed net.device))).remove (get_temp_file_name F))
      clientsList none i hreg
    rw [hfs]
    refine ⟨hend, fun h0 => absurd h0 hs, fun _ => ⟨?_, ?_⟩, fun n h1 h2 => ?_⟩
    · simp [FS.remove]
    · simp [FS.remove, FS.write, hT2]
    · simp [FS.remove, FS.write, h1, h2]

set_option maxRecDepth 100000 in
/-- Witness of C4: WRQ("f1", "octet") of the two bytes "hi" by a registered
session, on a file system that already holds "f1" with the content "x". -/
theorem atomic_write_policy_witness :
    (handleClient
        { socket_fd := 5, client_addr := peerA,
          packet := requestDgram TFTP_OPCODE_WRQ (cbytes "f1") (cbytes "octet") }
        true true hiNet (fun n => if n = cbytes "f1" then some [120] else none)
        [some { socket_fd := 5, client_addr := peerA,
                packet := requestDgram TFTP_OPCODE_WRQ (cbytes "f1") (cbytes "octet") }]).fs
        (cbytes "f1") = some [104, 105]
    ∧ (handleClient
        { socket_fd := 5, client_addr := peerA,
          packet := requestDgram TFTP_OPCODE_WRQ (cbytes "f1") (cbytes "octet") }
        true true hiNet (fun n => if n = cbytes "f1" then some [120] else none)
        [some { socket_fd := 5, client_addr := peerA,
                packet := requestDgram TFTP_OPCODE_WRQ (cbytes "f1") (cbytes "octet") }]).fs
        (get_temp_file_name (cbytes "f1")) = none :=
  (atomic_write_policy
    { socket_fd := 5, client_addr := peerA,
      packet := requestDgram TFTP_OPCODE_WRQ (cbytes "f1") (cbytes "octet") }
    (cbytes "f1") (cbytes "octet") true hiNet
    (fun n => if n = cbytes "f1" then some [120] else none)
    [some { socket_fd := 5, client_addr := peerA,
            packet := requestDgram TFTP_OPCODE_WRQ (cbytes "f1") (cbytes "octet") }]
    0 [104, 105] 0
    rfl (by decide) (by decide) (by decide) (by decide) (Or.inr (by decide))
    (by decide) (by decide)).2.1 rfl (by decide)

set_option maxRecDepth 100000 in
/-- The same WRQ when the stream accepts both bytes but the device holds one
byte only: the handler acknowledges the block and returns 0, the worker
removes the old "f1" and renames the temp file, and the fclose of
supprimer_client, whose result is not tested, leaves "f1" with the single
byte "h".  When the session is not in the client list nothing is closed and
"f1" is left with what had been flushed, here nothing. -/
theorem unchecked_fclose_truncates :
    (handle_write_request 10 [0, 0, 0, 0] hiNet.events).2 = .returned 0 [104, 105]
    ∧ (handleClient
        { socket_fd := 5, client_addr := peerA,
          packet := requestDgram TFTP_OPCODE_WRQ (cbytes "f1") (cbytes "octet") }
        true true { hiNet with device := 1 }
        (fun n => if n = cbytes "f1" then some [120] else none)
        [some { socket_fd := 5, client_addr := peerA,
                packet := requestDgram TFTP_OPCODE_WRQ (cbytes "f1") (cbytes "octet") }]).fs
        (cbytes "f1") = some [104]
    ∧ (handleClient
        { socket_fd := 5, client_addr := peerA,
          packet := requestDgram TFTP_OPCODE_WRQ (cbytes "f1") (cbytes "octet") }
        true true hiNet
        (fun n => if n = cbytes "f1" then some [120] else none) []).fs
        (cbytes "f1") = some [] := by
  refine ⟨?_, ?_, ?_⟩ <;> decide

/-! ## Peer errors, give-up and malformed input -/

/-- C11 (RRQ peer error), evaluation at the failing input.  The file is "hi".
After DATA(1) the handler receives the ERROR datagram `00 05 00 00 78 00`:
the receive loop has no branch for it and goes on waiting.  A timeout that
follows makes it send DATA(1) again, and an ACK(1) that follows makes it end
the transfer with 0; in neither run does the ERROR make it return -1. -/
theorem rrq_ignores_error :
    handle_read_request (fun _ => true) [0, 0, 0, 0] [104, 105]
        [Recv.dgram [0, 5, 0, 0, 120, 0]]
      = ([dataDgram 1 [104, 105]],
          .waiting
            { file := [], block_num := 1, num_bytes_read := 2,
              data_packet := dataDgram 1 [104, 105], retryCount := 0,
              ack_packet := [0, 5, 0, 0] })
    ∧ handle_read_request (fun _ => true) [0, 0, 0, 0] [104, 105]
        [Recv.dgram [0, 5, 0, 0, 120, 0], Recv.timeout]
      = ([dataDgram 1 [104, 105], dataDgram 1 [104, 105]],
          .waiting
            { file := [], block_num := 1, num_bytes_read := 2,
              data_packet := dataDgram 1 [104, 105], retryCount := 1,
              ack_packet := [0, 5, 0, 0] })
    ∧ handle_read_request (fun _ => true) [0, 0, 0, 0] [104, 105]
        [Recv.dgram [0, 5, 0, 0, 120, 0], Recv.dgram (ackDgram 1)]
      = ([dataDgram 1 [104, 105]], .returned 0) := by
  decide

set_option maxRecDepth 100000 in
/-- C12 (give-up on the wire), evaluation at the failing input.  A WRQ whose
peer never sends anything: handle_write_request emits ACK(0) five times and
returns -1 on the fifth timeout without sending an ERROR packet, and the
worker then only removes the temp file; the datagrams of the whole session
are the five ACK(0). -/
theorem wrq_give_up_silent :
    handle_write_request 10 [0, 0, 0, 0] (List.replicate 5 Recv.timeout)
      = (List.replicate 5 (ackDgram 0), .returned (-1) [])
    ∧ (handleClient
          { socket_fd := 5, client_addr := peerA,
            packet := requestDgram TFTP_OPCODE_WRQ (cbytes "f1") (cbytes "octet") }
          true true timeoutNet (fun _ => none) []).calls
        = [.SYNC_START .writer (cbytes "f1"),
           .fopen (get_temp_file_name (cbytes "f1")) (cbytes "wb"),
           .selectedHandler .writer,
           .sendto (ackDgram 0), .sendto (ackDgram 0), .sendto (ackDgram 0),
           .sendto (ackDgram 0), .sendto (ackDgram 0),
           .remove (get_temp_file_name (cbytes "f1")),
           .SYNC_END .writer (cbytes "f1"),
           .supprimer_client] := by
  decide

set_option maxRecDepth 100000 in
/-- C18 (WRQ protocol violation), evaluation at the failing input.  After the
full block DATA(1) the handler expects block 2.  A datagram of length 0 then
arrives: recvfrom returns 0 and stores nothing, the tests read the header of
the previous datagram (DATA, block 1), and the handler re-emits ACK(1) and
goes on waiting instead of sending ERROR(0) and returning -1. -/
theorem wrq_empty_datagram_reacks :
    handle_write_request 1000 [0, 0, 0, 0]
        [Recv.dgram (dataDgram 1 (List.replicate 512 0)), Recv.dgram []]
      = ([ackDgram 0, ackDgram 1, ackDgram 1],
          .waiting
            { blockNumber := 2, ackPacket := ackDgram 1, retryCount := 0,
              header := [0, 3, 0, 1], written := List.replicate 512 0 }) := by
  decide

set_option maxRecDepth 100000 in
/-- C20 (garbage-collection condition), evaluation at the failing input.  In
the state reached when sessions on "a" and "b" have started and the one on
"a" has ended (slot 0 NULL, the entry of "b" in slot 1, num_files 1),
delete_fileEntry does not return -1 with the registry unchanged: its search
reads through the NULL slot 0, for the name "b" whose entry has a reader as
for the name "c" that has no entry. -/
theorem delete_reads_empty_slot :
    ∃ st, run (initSync [(.reader, [97]), (.reader, [98])]) [0, 1, 0, 0] = some st
      ∧ st.file_list.files.take 2
          = [none, some { filename := [98], rw_mutex := true, actif_readers := 1,
                          num_readers := 1, num_writers := 0 }]
      ∧ st.file_list.num_files = 1
      ∧ delete_fileEntry [98] st.file_list = none
      ∧ delete_fileEntry [99] st.file_list = none := by
  refine ⟨_, rfl, ?_, ?_, ?_, ?_⟩ <;> rfl

/-! ## handle_write_request: timeouts -/

theorem wrq_run_returned (capacity : Nat) (r : Int) (w : List Nat) (evs : List Recv) :
    wrq_run capacity (.returned r w) evs = ([], .returned r w) := by
  cases evs <;> rfl

theorem wrq_run_timeouts (capacity : Nat) :
    ∀ (t : Nat) (s : WrqState), s.retryCount + t ≤ MAX_RETRIES →
      wrq_run capacity (.waiting s) (List.replicate t Recv.timeout)
        = (List.replicate t s.ackPacket,
            .waiting { s with retryCount := s.retryCount + t }) := by
  intro t
  induction t with
  | zero => intro s _; rfl
  | succ t ih =>
    intro s h
    have hr : s.retryCount < MAX_RETRIES := by omega
    simp only [List.replicate_succ, wrq_run, wrq_recv, hr, if_true]
    rw [ih { s with retryCount := s.retryCount + 1 } (by simp only []; omega)]
    simp only [List.singleton_append, Prod.mk.injEq, true_and, WStatus.waiting.injEq]
    congr 1
    omega

theorem wrq_run_exhaust (capacity m : Nat) :
    ∀ (t : Nat) (s : WrqState), s.retryCount + t = MAX_RETRIES →
      wrq_run capacity (.waiting s) (List.replicate (t + 1 + m) Recv.timeout)
        = (List.replicate t s.ackPacket, .returned (-1) s.written) := by
  intro t
  induction t with
  | zero =>
    intro s h
    have hr : ¬ s.retryCount < MAX_RETRIES := by omega
    rw [show 0 + 1 + m = m + 1 by omega]
    simp only [List.replicate_succ, wrq_run, wrq_recv, hr, if_false, wrq_run_returned]
    simp
  | succ t ih =>
    intro s h
    have hr : s.retryCount < MAX_RETRIES := by omega
    rw [show t + 1 + 1 + m = (t + 1 + m) + 1 by omega]
    simp only [List.replicate_succ, wrq_run, wrq_recv, hr, if_true]
    rw [ih { s with retryCount := s.retryCount + 1 } (by simp only []; omega)]
    simp

/-- C19 (WRQ timeout).  On a receive timeout met with retryCount below
MAX_RETRIES = 4 handle_write_request retransmits its ackPacket unchanged and
increments retryCount; met with retryCount equal to 4 it sends nothing and
returns -1.  Hence when the peer never answers the WRQ, after t <= 4 timeouts
ACK(0) has been sent t + 1 times and the handler is still waiting, and on the
fifth consecutive timeout it returns -1, ACK(0) having been sent exactly 5
times. -/
theorem wrq_timeout (capacity : Nat) (header0 : List Nat) :
    MAX_RETRIES = 4
    ∧ (∀ s : WrqState, s.retryCount < MAX_RETRIES →
        wrq_recv capacity s Recv.timeout
          = ([s.ackPacket], .waiting { s with retryCount := s.retryCount + 1 }))
    ∧ (∀ s : WrqState, s.retryCount = MAX_RETRIES →
        wrq_recv capacity s Recv.timeout = ([], .returned (-1) s.written))
    ∧ (∀ t, t ≤ 4 →
        handle_write_request capacity header0 (List.replicate t Recv.timeout)
          = (List.replicate (t + 1) (ackDgram 0),
              .waiting
                { blockNumber := 1, ackPacket := ackDgram 0, retryCount := t,
                  header := header0, written := [] }))
    ∧ (∀ m, handle_write_request capacity header0 (List.replicate (5 + m) Recv.timeout)
        = (List.replicate 5 (ackDgram 0), .returned (-1) [])) := by
  have h0 : wrq_init header0 =
      ([ackDgram 0],
        .waiting
          { blockNumber := 1, ackPacket := ackDgram 0, retryCount := 0,
            header := header0, written := [] }) := rfl
  refine ⟨rfl, ?_, ?_, ?_, ?_⟩
  · intro s hs
    simp only [wrq_recv, hs, if_true]
  · intro s hs
    have : ¬ s.retryCount < MAX_RETRIES := by omega
    simp only [wrq_recv, this, if_false]
  · intro t ht
    unfold handle_write_request
    simp only [h0]
    rw [wrq_run_timeouts capacity t _ (by simp only [MAX_RETRIES]; omega)]
    simp [List.replicate_succ]
  · intro m
    unfold handle_write_request
    simp only [h0]
    rw [show 5 + m = 4 + 1 + m by omega,
      wrq_run_exhaust capacity m 4
        { blockNumber := 1, ackPacket := ackDgram 0, retryCount := 0,
          header := header0, written := [] } rfl]
    simp [List.replicate_succ]

/-- Witness of C19: the peer stays silent for five timeouts. -/
theorem wrq_timeout_witness :
    handle_write_request 10 [0, 0, 0, 0] (List.replicate (5 + 0) Recv.timeout)
        = (List.replicate 5 (ackDgram 0), .returned (-1) [])
    ∧ wrq_recv 10
        { blockNumber := 1, ackPacket := ackDgram 0, retryCount := 3,
          header := [0, 0, 0, 0], written := [] } Recv.timeout
        = ([ackDgram 0],
            .waiting
              { blockNumber := 1, ackPacket := ackDgram 0, retryCount := 3 + 1,
                header := [0, 0, 0, 0], written := [] }) :=
  have h := wrq_timeout 10 [0, 0, 0, 0]
  ⟨h.2.2.2.2 0,
    h.2.1
      { blockNumber := 1, ackPacket := ackDgram 0, retryCount := 3,
        header := [0, 0, 0, 0], written := [] } (by decide)⟩

/-! ## Open failure -/

set_option maxRecDepth 100000 in
/-- C13 (WRQ open failure mapping), counterexample.  For WRQ("f1", "octet")
whose temp file cannot be opened, the single ERROR packet the worker sends is
that of FileNotFound: its bytes start `00 05 00 01`, so the code is 1, neither
2 (AccessViolation) nor 3 (DiskFull). -/
theorem wrq_open_failure_code_one :
    (handleClient
        { socket_fd := 5, client_addr := peerA,
          packet := requestDgram TFTP_OPCODE_WRQ (cbytes "f1") (cbytes "octet") }
        true false silentNet (fun _ => none) []).calls
      = [.SYNC_START .writer (cbytes "f1"),
         .fopen (get_temp_file_name (cbytes "f1")) (cbytes "wb"),
         .sendto (send_error_packet FileNotFound (get_error_message FileNotFound) none),
         .SYNC_END .writer (cbytes "f1")]
    ∧ (send_error_packet FileNotFound (get_error_message FileNotFound) none).take 4
        = [0, 5, 0, 1]
    ∧ FileNotFound ≠ AccessViolation ∧ FileNotFound ≠ DiskFullOrAllocationExceeded := by
  decide

/-- C13 (amended).  For a well-formed request whose file cannot be opened,
the temp file of a WRQ as well as the source file of an RRQ, the worker calls
SYNC_START, attempts fopen, sends exactly one ERROR packet, which carries
code FileNotFound (1), calls SYNC_END and exits. -/
theorem open_failure_file_not_found (client : TFTP_Client) (F mode : List Nat)
    (file0_null fopen_w_ok : Bool) (net : Net) (fs : FS) (clientsList : TFTP_ClientsList)
    (hF0 : 0 ∉ F) (hFne : F ≠ []) (hFlen : F.length < 512) (hm0 : 0 ∉ mode)
    (hmode : strcasecmp_eq mode (cbytes "netascii") = true
      ∨ strcasecmp_eq mode (cbytes "octet") = true) :
    (client.packet = requestDgram TFTP_OPCODE_WRQ F mode → fopen_w_ok = false →
      (handleClient client file0_null fopen_w_ok net fs clientsList).calls
        = [.SYNC_START .writer F,
           .fopen (get_temp_file_name F)
             (if strcasecmp_eq mode (cbytes "netascii") = true then cbytes "w"
              else cbytes "wb"),
           .sendto (send_error_packet FileNotFound (get_error_message FileNotFound) none),
           .SYNC_END .writer F]
      ∧ (handleClient client file0_null fopen_w_ok net fs clientsList).ending = .exited)
    ∧ (client.packet = requestDgram TFTP_OPCODE_RRQ F mode → fs F = none →
      (handleClient client file0_null fopen_w_ok net fs clientsList).calls
        = [.SYNC_START .reader F,
           .fopen F
             (if strcasecmp_eq mode (cbytes "netascii") = true then cbytes "r"
              else cbytes "rb"),
           .sendto (send_error_packet FileNotFound (get_error_message FileNotFound) none),
           .SYNC_END .reader F]
      ∧ (handleClient client file0_null fopen_w_ok net fs clientsList).ending = .exited)
    ∧ (send_error_packet FileNotFound (get_error_message FileNotFound) none).take 4
        = [0, 5, 0, 1] := by
  have hmlen : mode.length < 10 := by
    rcases hmode with h | h
    · rw [strcasecmp_length mode _ hm0 (by decide) h]; decide
    · rw [strcasecmp_length mode _ hm0 (by decide) h]; decide
  have hFpos : F.length ≠ 0 := fun h => hFne (List.length_eq_zero.mp h)
  have hbad : ¬ (strcasecmp_eq mode (cbytes "netascii") = false
      ∧ strcasecmp_eq mode (cbytes "octet") = false) := by
    rcases hmode with h | h <;> simp [h]
  have hmpos : mode.length ≠ 0 := by
    rcases hmode with h | h
    · rw [strcasecmp_length mode _ hm0 (by decide) h]; decide
    · rw [strcasecmp_length mode _ hm0 (by decide) h]; decide
  refine ⟨?_, ?_, by decide⟩
  · intro hpkt hw
    have hop : ntohs ((requestDgram TFTP_OPCODE_WRQ F mode).take 2) = 2 := by
      simp [requestDgram, htons, ntohs, TFTP_OPCODE_WRQ]
    unfold handleClient
    simp only [hpkt, hop, request_filename _ F mode hF0, request_mode _ F mode hm0]
    rw [if_neg (by simp [TFTP_OPCODE_RRQ, TFTP_OPCODE_WRQ])]
    rw [if_neg (by omega), if_neg hFpos, if_neg (by omega), if_neg hbad]
    simp [TFTP_OPCODE_RRQ, hmpos, hbad, hw]
  · intro hpkt hfs
    have hop : ntohs ((requestDgram TFTP_OPCODE_RRQ F mode).take 2) = 1 := by
      simp [requestDgram, htons, ntohs, TFTP_OPCODE_RRQ]
    unfold handleClient
    simp only [hpkt, hop, request_filename _ F mode hF0, request_mode _ F mode hm0]
    rw [if_neg (by simp [TFTP_OPCODE_RRQ, TFTP_OPCODE_WRQ])]
    rw [if_neg (by omega), if_neg hFpos, if_neg (by omega), if_neg hbad]
    simp [TFTP_OPCODE_RRQ, hmpos, hbad, hfs]

set_option maxRecDepth 100000 in
/-- Witness of C13 (amended): RRQ("f1", "octet") on an empty file system. -/
theorem open_failure_file_not_found_witness :
    (handleClient
        { socket_fd := 5, client_addr := peerA,
          packet := requestDgram TFTP_OPCODE_RRQ (cbytes "f1") (cbytes "octet") }
        true true silentNet (fun _ => none) []).calls
      = [.SYNC_START .reader (cbytes "f1"),
         .fopen (cbytes "f1")
           (if strcasecmp_eq (cbytes "octet") (cbytes "netascii") = true then cbytes "r"
            else cbytes "rb"),
         .sendto (send_error_packet FileNotFound (get_error_message FileNotFound) none),
         .SYNC_END .reader (cbytes "f1")] :=
  ((open_failure_file_not_found
    { socket_fd := 5, client_addr := peerA,
      packet := requestDgram TFTP_OPCODE_RRQ (cbytes "f1") (cbytes "octet") }
    (cbytes "f1") (cbytes "octet") true true silentNet (fun _ => none) []
    (by decide) (by decide) (by decide) (by decide) (Or.inr (by decide))).2.1 rfl rfl).1

/-! ## handle_write_request: invariant of the waiting states -/

theorem recvInto_length (buf d : List Nat) : (recvInto buf d).length = buf.length := by
  simp only [recvInto, List.length_append, List.length_take, List.length_drop]
  omega

theorem recvInto_whole (buf d : List Nat) (hb : buf.length = 4) (hd : 4 ≤ d.length) :
    recvInto buf d = d.take 4 := by
  unfold recvInto
  rw [hb, List.drop_eq_nil_of_le (by omega), List.append_nil]

/-- A two-byte field made of bytes is the network-order image of its value. -/
theorem htons_ntohs (f : List Nat) (hl : f.length = 2) (hb : ∀ b ∈ f, b < 256) :
    htons (ntohs f) = f ∧ ntohs f ≤ 65535 := by
  match f, hl with
  | [a, b], _ =>
    have ha : a < 256 := hb a (by simp)
    have hb2 : b < 256 := hb b (by simp)
    simp only [ntohs, htons, List.getD_cons_zero, List.getD_cons_succ]
    refine ⟨?_, by omega⟩
    congr 1
    · omega
    · congr 1; omega

theorem block_field (d : List Nat) (hd : 4 ≤ d.length) (hb : ∀ b ∈ d, b < 256) :
    (((d.take 4).drop 2).take 2).length = 2 ∧ ∀ b ∈ ((d.take 4).drop 2).take 2, b < 256 := by
  refine ⟨by simp; omega, fun b h => hb b ?_⟩
  exact List.mem_of_mem_take (List.mem_of_mem_drop (List.mem_of_mem_take h))

/-- One step of handle_write_request keeps the invariant. -/
theorem wrq_recv_inv (capacity : Nat) (s s2 : WrqState) (ev : Recv) (out : List (List Nat))
    (hinv : WrqInv s) (hb : ∀ d, ev = Recv.dgram d → ∀ b ∈ d, b < 256)
    (h : wrq_recv capacity s ev = (out, .waiting s2)) : WrqInv s2 := by
  obtain ⟨ha, h1, h2, hh⟩ := hinv
  cases ev with
  | timeout =>
    simp only [wrq_recv] at h
    split at h
    · simp only [Prod.mk.injEq, WStatus.waiting.injEq] at h
      obtain ⟨_, rfl⟩ := h
      exact ⟨ha, h1, h2, hh⟩
    · simp at h
  | dgram d =>
    simp only [wrq_recv] at h
    split at h
    · simp only [Prod.mk.injEq, WStatus.waiting.injEq] at h
      obtain ⟨_, rfl⟩ := h
      exact ⟨ha, h1, h2, by simp only [recvInto_length, hh]⟩
    · split at h
      · split at h
        · simp at h
        · rename_i hcond hlen
          split at h
          · simp at h
          · split at h
            · simp at h
            · simp only [Prod.mk.injEq, WStatus.waiting.injEq] at h
              obtain ⟨_, rfl⟩ := h
              have hd : 4 ≤ d.length := by
                simp only [recvlen, TFTP_HEADER_SIZE, MAX_PACKET_SIZE] at hlen
                omega
              rw [recvInto_whole _ _ hh hd] at hcond ⊢
              obtain ⟨hl2, hb2⟩ := block_field d hd (hb d rfl)
              obtain ⟨e1, e2⟩ := htons_ntohs _ hl2 hb2
              have hF := e1
              rw [hcond.2] at hF
              have hk : (ackDgram (s.blockNumber - 1)).take 2 = htons TFTP_OPCODE_ACK := by
                simp [ackDgram, htons]
              refine ⟨?_, by simp, by simp only []; omega, by simp; omega⟩
              simp only [Nat.add_sub_cancel]
              rw [ha, hk, ← hF]
              rfl
      · split at h <;> simp at h

/-- Every waiting state reached from a waiting state that satisfies the
invariant satisfies it. -/
theorem wrq_run_inv (capacity : Nat) :
    ∀ (evs : List Recv) (s s2 : WrqState) (out : List (List Nat)),
      WrqInv s → byteEvents evs →
      wrq_run capacity (.waiting s) evs = (out, .waiting s2) → WrqInv s2 := by
  intro evs
  induction evs with
  | nil =>
    intro s s2 out hinv _ h
    simp only [wrq_run, Prod.mk.injEq, WStatus.waiting.injEq] at h
    exact h.2 ▸ hinv
  | cons ev evs ih =>
    intro s s2 out hinv hb h
    simp only [wrq_run] at h
    have hb1 : ∀ d, ev = Recv.dgram d → ∀ b ∈ d, b < 256 :=
      fun d hd => hb d (hd ▸ List.mem_cons_self _ _)
    have hb2 : byteEvents evs := fun d hd => hb d (List.mem_cons_of_mem _ hd)
    cases hst : (wrq_recv capacity s ev).2 with
    | waiting s1 =>
      have hinv1 : WrqInv s1 :=
        wrq_recv_inv capacity s s1 ev (wrq_recv capacity s ev).1 hinv hb1 (Prod.ext rfl hst)
      rw [hst] at h
      simp only [Prod.mk.injEq] at h
      exact ih s1 s2 _ hinv1 hb2 (Prod.ext rfl h.2)
    | returned r w =>
      rw [hst, wrq_run_returned] at h
      simp at h
    | undefined =>
      rw [hst] at h
      cases evs <;> simp [wrq_run] at h

theorem wrq_init_inv (header0 : List Nat) (hh : header0.length = 4) :
    WrqInv
      { blockNumber := 1, ackPacket := ackDgram 0, retryCount := 0,
        header := header0, written := [] } :=
  ⟨rfl, Nat.le_refl 1, by simp, hh⟩

/-- Every state in which handle_write_request waits satisfies the
invariant. -/
theorem wrq_reachable_inv (capacity : Nat) (header0 : List Nat) (evs : List Recv)
    (out : List (List Nat)) (s : WrqState) (hh : header0.length = 4) (hb : byteEvents evs)
    (h : handle_write_request capacity header0 evs = (out, .waiting s)) : WrqInv s := by
  unfold handle_write_request at h
  simp only [wrq_init, Prod.mk.injEq] at h
  exact wrq_run_inv capacity evs _ s _ (wrq_init_inv header0 hh) hb (Prod.ext rfl h.2)

/-! ## handle_write_request: duplicate block -/

/-- C16 (WRQ duplicate block).  In every state `s` in which
handle_write_request waits, with expected block number e = s.blockNumber
(at least 1), the variable ackPacket is ACK(e-1), and receiving DATA(e-1),
whatever its payload, makes the server re-emit ACK(e-1) unchanged, write
nothing, leave e unchanged and keep waiting (retryCount is reset).  From the
state after the duplicate, a DATA(e) is handled exactly as from `s`: its
payload is appended to the file and ACK(e) is emitted. -/
theorem wrq_duplicate_block (capacity : Nat) (header0 : List Nat) (evs : List Recv)
    (out : List (List Nat)) (s : WrqState) (payload : List Nat)
    (hh : header0.length = 4) (hb : byteEvents evs)
    (hreach : handle_write_request capacity header0 evs = (out, .waiting s)) :
    1 ≤ s.blockNumber
    ∧ s.ackPacket = ackDgram (s.blockNumber - 1)
    ∧ wrq_recv capacity s (.dgram (dataDgram (s.blockNumber - 1) payload))
        = ([ackDgram (s.blockNumber - 1)],
            .waiting
              { s with retryCount := 0
                       header := htons TFTP_OPCODE_DATA ++ htons (s.blockNumber - 1) })
    ∧ (∀ p : List Nat,
        wrq_recv capacity
            { s with retryCount := 0
                     header := htons TFTP_OPCODE_DATA ++ htons (s.blockNumber - 1) }
            (.dgram (dataDgram s.blockNumber p))
          = wrq_recv capacity s (.dgram (dataDgram s.blockNumber p)))
    ∧ (∀ p : List Nat, s.blockNumber ≤ 65535 → p.length ≤ 512 →
        s.written.length + p.length ≤ capacity →
        wrq_recv capacity
            { s with retryCount := 0
                     header := htons TFTP_OPCODE_DATA ++ htons (s.blockNumber - 1) }
            (.dgram (dataDgram s.blockNumber p))
          = ([ackDgram s.blockNumber],
              if p.length < 512 then .returned 0 (s.written ++ p)
              else .waiting
                { blockNumber := s.blockNumber + 1
                  ackPacket := ackDgram s.blockNumber
                  retryCount := 0
                  header := htons TFTP_OPCODE_DATA ++ htons s.blockNumber
                  written := s.written ++ p })) := by
  obtain ⟨ha, h1, h2, hlen⟩ := wrq_reachable_inv capacity header0 evs out s hh hb hreach
  have hhdr : ∀ (e : Nat) (p : List Nat), recvInto s.header (dataDgram e p)
      = htons TFTP_OPCODE_DATA ++ htons e := fun e p => dataDgram_header e p _ hlen
  have hhdr2 : ∀ (e : Nat) (p : List Nat),
      recvInto (htons TFTP_OPCODE_DATA ++ htons (s.blockNumber - 1)) (dataDgram e p)
        = htons TFTP_OPCODE_DATA ++ htons e :=
    fun e p => dataDgram_header e p _ (by simp [htons])
  refine ⟨h1, ha, ?_, ?_, ?_⟩
  · have hop : (htons TFTP_OPCODE_DATA ++ htons (s.blockNumber - 1)).take 2
        = htons TFTP_OPCODE_DATA := by simp [htons]
    have hbn : ((htons TFTP_OPCODE_DATA ++ htons (s.blockNumber - 1)).drop 2).take 2
        = htons (s.blockNumber - 1) := by simp [htons]
    simp only [wrq_recv, hhdr, hop, hbn, ntohs_htons _ (by omega : s.blockNumber - 1 ≤ 65535),
      true_and]
    rw [if_pos (by omega), ha]
  · intro p
    simp only [wrq_recv, hhdr, hhdr2]
  · intro p he hp hc
    have := wrq_recv_data capacity
      { s with retryCount := 0
               header := htons TFTP_OPCODE_DATA ++ htons (s.blockNumber - 1) }
      p he (by simp [htons]) (by rw [ha]; simp [ackDgram, htons]) hp hc
    simpa using this

/-- Witness of C16: in the initial state (expected block 1) the datagram
DATA(0) arrives and ACK(0) is emitted again. -/
theorem wrq_duplicate_block_witness :
    wrq_recv 1000
        { blockNumber := 1, ackPacket := ackDgram 0, retryCount := 0,
          header := [0, 0, 0, 0], written := [] }
        (.dgram (dataDgram (1 - 1) [7]))
      = ([ackDgram (1 - 1)],
          .waiting
            { blockNumber := 1, ackPacket := ackDgram 0, retryCount := 0,
              header := htons TFTP_OPCODE_DATA ++ htons (1 - 1), written := [] }) :=
  (wrq_duplicate_block 1000 [0, 0, 0, 0] [] [ackDgram 0]
    { blockNumber := 1, ackPacket := ackDgram 0, retryCount := 0,
      header := [0, 0, 0, 0], written := [] }
    [7] rfl (fun _ h => by cases h) rfl).2.2.1

/-! ## File registry: readers and the write lock -/

set_option maxRecDepth 100000 in
/-- C15 (literal lock invariant), counterexample.  From the empty registry a
single session calls sync_start_read on "f": its trylock succeeds and is not
undone, so in the state reached the reader is admitted, actif_readers of the
entry is 1 and rw_mutex is held. -/
theorem first_reader_holds_lock :
    ∃ st, run (initSync [(.reader, [102])]) [0] = some st
      ∧ st.sessions.get? 0 = some { kind := .reader, filename := [102], phase := .inside }
      ∧ entryOf [102] st.file_list
          = some { filename := [102], rw_mutex := true, actif_readers := 1,
                   num_readers := 1, num_writers := 0 } := by
  refine ⟨_, rfl, ?_, ?_⟩ <;> rfl

theorem getD_set_self (l : List (Option FileEntry)) (i : Nat) (e0 e : FileEntry)
    (h : l.getD i none = some e0) : (l.set i (some e)).getD i none = some e := by
  have hi : i < l.length := by
    by_contra hn
    rw [List.getD_eq_getElem?_getD, List.getElem?_eq_none (by omega)] at h
    simp at h
  rw [List.getD_eq_getElem?_getD, List.getElem?_set_self hi]
  rfl

/-- C15 (amended).  Whenever sync_start_read admits a reader without making
it wait, it returns with rw_mutex of the entry held (taken by the reader's
own trylock, or already held while readers are active), num_readers and
actif_readers each incremented by one; and sync_end_read releases rw_mutex
(and broadcasts) exactly when it brings num_readers to 0.  Readers thus hold
the write lock while they are active. -/
theorem reader_admission_holds_lock (filename : List Nat) (fl : FileList) :
    (∀ fl2 b, sync_start_read filename fl = .returned fl2 b →
      b = none
      ∧ ∃ i fl1 e0, get_or_create_fileEntry filename fl = (.found i, fl1)
          ∧ fl1.files.getD i none = some e0
          ∧ fl2.files.getD i none
              = some { e0 with num_readers := e0.num_readers + 1
                               actif_readers := e0.actif_readers + 1
                               rw_mutex := true })
    ∧ (∀ i e0, get_fileEntry filename fl = .found i → fl.files.getD i none = some e0 →
        sync_end_read filename fl
          = .returned
              (setEntry fl i
                { e0 with num_readers := e0.num_readers - 1
                          actif_readers := e0.actif_readers - 1
                          rw_mutex := if e0.num_readers - 1 = 0 then false else e0.rw_mutex })
              (if e0.num_readers - 1 = 0 then some i else none)) := by
  constructor
  · intro fl2 b h
    unfold sync_start_read at h
    split at h
    · simp at h
    · simp at h
    · rename_i i fl1 hget
      split at h
      · simp at h
      · rename_i e0 he0
        unfold read_loop at h
        split at h
        · rename_i hfree
          simp only [SyncResult.returned.injEq] at h
          obtain ⟨rfl, rfl⟩ := h
          refine ⟨rfl, i, fl1, e0, hget, he0, ?_⟩
          simp only [setEntry]
          exact getD_set_self _ _ _ _ he0
        · split at h
          · simp at h
          · rename_i hheld _
            simp only [SyncResult.returned.injEq] at h
            obtain ⟨rfl, rfl⟩ := h
            refine ⟨rfl, i, fl1, e0, hget, he0, ?_⟩
            simp only [setEntry]
            rw [getD_set_self _ _ _ _ he0]
            have hl : e0.rw_mutex = true := by simpa using hheld
            cases e0
            simp_all
  · intro i e0 hget he0
    unfold sync_end_read
    simp only [hget, he0]
    by_cases hz : e0.num_readers - 1 = 0
    · simp [hz]
    · simp only [hz, if_false]

set_option maxRecDepth 100000 in
/-- Witness of C15 (amended): sync_start_read on the empty registry. -/
theorem reader_admission_holds_lock_witness :
    ∃ i fl1 e0, get_or_create_fileEntry [102] initialize_fileList = (.found i, fl1)
      ∧ fl1.files.getD i none = some e0
      ∧ (setEntry (get_or_create_fileEntry [102] initialize_fileList).2 0
            { filename := [102], rw_mutex := true, actif_readers := 1,
              num_readers := 1, num_writers := 0 }).files.getD i none
          = some { e0 with num_readers := e0.num_readers + 1
                           actif_readers := e0.actif_readers + 1
                           rw_mutex := true } :=
  ((reader_admission_holds_lock [102] initialize_fileList).1
    (setEntry (get_or_create_fileEntry [102] initialize_fileList).2 0
      { filename := [102], rw_mutex := true, actif_readers := 1,
        num_readers := 1, num_writers := 0 })
    none rfl).2

/-! ## handle_write_request: counting acknowledgements -/

set_option maxRecDepth 100000 in
/-- C17 (WRQ ACK count), counterexample.  The client sends the full block
DATA(1) once and then stays silent for one timeout: the server emits ACK(1)
when it accepts the block and again on the timeout, so ACK(1) is emitted
twice although one copy of DATA(1) was received. -/
theorem wrq_ack_count_timeout :
    (handle_write_request 1000 [0, 0, 0, 0]
        [Recv.dgram (dataDgram 1 (List.replicate 512 0)), Recv.timeout]).1
      = [ackDgram 0, ackDgram 1, ackDgram 1]
    ∧ [ackDgram 0, ackDgram 1, ackDgram 1].count (ackDgram 1) = 2
    ∧ (wrq_received 1000 (wrq_init [0, 0, 0, 0]).2
        [Recv.dgram (dataDgram 1 (List.replicate 512 0)), Recv.timeout]).countP (isDataCopy 1)
        = 1 := by
  decide

theorem htons_inj (a b : Nat) (ha : a ≤ 65535) (hb : b ≤ 65535) (h : htons a = htons b) :
    a = b := by
  rw [← ntohs_htons a ha, ← ntohs_htons b hb, h]

theorem ackDgram_inj (a b : Nat) (ha : a ≤ 65535) (hb : b ≤ 65535) :
    ackDgram a = ackDgram b ↔ a = b := by
  constructor
  · intro h
    apply htons_inj a b ha hb
    simpa [ackDgram] using h
  · intro h; rw [h]

/-- A four-byte header is a copy of DATA(n) exactly when its opcode field is
DATA and its block field reads n. -/
theorem header_is_data (H : List Nat) (n : Nat) (hH : H.length = 4)
    (hb : ∀ b ∈ H, b < 256) (hn : n ≤ 65535) :
    H = dataDgram n [] ↔ (H.take 2 = htons TFTP_OPCODE_DATA ∧ ntohs ((H.drop 2).take 2) = n) := by
  match H, hH with
  | [a, b, c, d], _ =>
    have hc : c < 256 := hb c (by simp)
    have hd : d < 256 := hb d (by simp)
    simp only [dataDgram, htons, ntohs, TFTP_OPCODE_DATA, List.take, List.drop,
      List.getD_cons_zero, List.getD_cons_succ, List.append_nil, List.cons_append,
      List.nil_append, List.cons.injEq, and_true]
    constructor
    · rintro ⟨rfl, rfl, rfl, rfl⟩
      refine ⟨⟨by decide, by decide⟩, by omega⟩
    · rintro ⟨⟨h1, h2⟩, h3⟩
      refine ⟨by simpa using h1, by simpa using h2, by omega, by omega⟩

theorem count_ack_singleton (m n : Nat) (hm : m ≤ 65535) (hn : n ≤ 65535) :
    [ackDgram m].count (ackDgram n) = if m = n then 1 else 0 := by
  by_cases h : m = n
  · simp [h]
  · have : ¬ ackDgram m = ackDgram n := fun e => h ((ackDgram_inj m n hm hn).mp e)
    simp [h, List.count_cons, this]

/-- A whole datagram either makes the handler fail, or is acknowledged by
exactly one ACK carrying the block number of the datagram, which is DATA. -/
theorem wrq_recv_whole_count (capacity n : Nat) (s : WrqState) (d : List Nat)
    (hinv : WrqInv s) (hd : 4 ≤ d.length) (hb : ∀ b ∈ d, b < 256) (hn : n ≤ 65535) :
    (∃ w, (wrq_recv capacity s (.dgram d)).2 = .returned (-1) w)
    ∨ ((wrq_recv capacity s (.dgram d)).1.count (ackDgram n)
          = (if isDataCopy n (.dgram d) = true then 1 else 0)
        ∧ ((∃ s1, (wrq_recv capacity s (.dgram d)).2 = .waiting s1)
            ∨ ∃ w, (wrq_recv capacity s (.dgram d)).2 = .returned 0 w)) := by
  obtain ⟨ha, h1, h2, hh⟩ := hinv
  have hH : (d.take 4).length = 4 := by simp; omega
  have hHb : ∀ b ∈ d.take 4, b < 256 := fun b h => hb b (List.mem_of_mem_take h)
  obtain ⟨hl2, hb2⟩ := block_field d hd hb
  obtain ⟨e1, e2⟩ := htons_ntohs _ hl2 hb2
  have hdata := header_is_data (d.take 4) n hH hHb hn
  have hcopy : isDataCopy n (.dgram d) = true ↔
      ((d.take 4).take 2 = htons TFTP_OPCODE_DATA
        ∧ ntohs (((d.take 4).drop 2).take 2) = n) := by
    simp only [isDataCopy, decide_eq_true_eq]
    exact hdata
  have hlen : ¬ recvlen MAX_PACKET_SIZE d < TFTP_HEADER_SIZE := by
    simp only [recvlen, TFTP_HEADER_SIZE, MAX_PACKET_SIZE]; omega
  simp only [wrq_recv, recvInto_whole _ _ hh hd]
  split
  · rename_i hc
    right
    refine ⟨?_, Or.inl ⟨_, rfl⟩⟩
    have hm : s.blockNumber - 1 = ntohs (((d.take 4).drop 2).take 2) := by omega
    simp only [ha, hm, count_ack_singleton _ n e2 hn]
    by_cases hmn : ntohs (((d.take 4).drop 2).take 2) = n
    · rw [if_pos hmn, if_pos (hcopy.mpr ⟨hc.1, hmn⟩)]
    · rw [if_neg hmn, if_neg (fun h => hmn (hcopy.mp h).2)]
  · split
    · rename_i hc
      have hack : s.ackPacket.take 2 ++ ((d.take 4).drop 2).take 2
          = ackDgram (ntohs (((d.take 4).drop 2).take 2)) := by
        rw [ha]
        conv_rhs => rw [ackDgram, e1]
        simp [ackDgram, htons]
      have hcount : [s.ackPacket.take 2 ++ ((d.take 4).drop 2).take 2].count (ackDgram n)
          = if isDataCopy n (.dgram d) = true then 1 else 0 := by
        rw [hack, count_ack_singleton _ n e2 hn]
        by_cases hmn : ntohs (((d.take 4).drop 2).take 2) = n
        · rw [if_pos hmn, if_pos (hcopy.mpr ⟨hc.1, hmn⟩)]
        · rw [if_neg hmn, if_neg (fun h => hmn (hcopy.mp h).2)]
      split
      · exact Or.inl ⟨_, rfl⟩
      · split
        · exact Or.inr ⟨hcount, Or.inr ⟨_, rfl⟩⟩
        · exact Or.inr ⟨hcount, Or.inl ⟨_, rfl⟩⟩
    · split
      · exact Or.inl ⟨_, rfl⟩
      · exact Or.inl ⟨_, rfl⟩

theorem wrq_received_returned (capacity : Nat) (r : Int) (w : List Nat) (evs : List Recv) :
    wrq_received capacity (.returned r w) evs = [] := by
  cases evs <;> rfl

/-- Over whole datagrams and as long as the handler does not fail, the ACK(n)
emitted are as many as the copies of DATA(n) received. -/
theorem wrq_run_count (capacity n : Nat) (hn : n ≤ 65535) :
    ∀ (evs : List Recv) (s : WrqState), WrqInv s → byteEvents evs → wholeEvents evs →
      (∀ w, (wrq_run capacity (.waiting s) evs).2 ≠ .returned (-1) w) →
      (wrq_run capacity (.waiting s) evs).1.count (ackDgram n)
        = (wrq_received capacity (.waiting s) evs).countP (isDataCopy n) := by
  intro evs
  induction evs with
  | nil => intro s _ _ _ _; rfl
  | cons ev evs ih =>
    intro s hinv hb hw hok
    obtain ⟨d, rfl, hd⟩ := hw ev (List.mem_cons_self _ _)
    have hb1 : ∀ b ∈ d, b < 256 := hb d (List.mem_cons_self _ _)
    have hb2 : byteEvents evs := fun d2 h2 => hb d2 (List.mem_cons_of_mem _ h2)
    have hw2 : wholeEvents evs := fun e2 h2 => hw e2 (List.mem_cons_of_mem _ h2)
    simp only [wrq_run, wrq_received] at hok ⊢
    rcases wrq_recv_whole_count capacity n s d hinv hd hb1 hn with ⟨w, hf⟩ | ⟨hcount, hst⟩
    · exfalso
      rw [hf, wrq_run_returned] at hok
      exact hok w rfl
    · rw [List.count_append, hcount, List.countP_cons]
      rcases hst with ⟨s1, hs1⟩ | ⟨w, hs1⟩
      · have hinv1 : WrqInv s1 :=
          wrq_recv_inv capacity s s1 (.dgram d) _ hinv
            (fun d2 h2 => by cases h2; exact hb1) (Prod.ext rfl hs1)
        rw [hs1] at hok ⊢
        rw [ih s1 hinv1 hb2 hw2 hok]
        omega
      · rw [hs1, wrq_run_returned, wrq_received_returned]
        simp

/-- C17 (amended).  In every run of handle_write_request in which no receive
times out, every datagram received has at least four bytes, and the handler
does not fail (it is still waiting or has returned 0), for every block number
n from 1 to 65535 the number of ACK(n) packets emitted equals the number of
copies of DATA(n) received. -/
theorem wrq_ack_count (capacity : Nat) (header0 : List Nat) (evs : List Recv) (n : Nat)
    (hh : header0.length = 4) (hb : byteEvents evs) (hw : wholeEvents evs)
    (hn1 : 1 ≤ n) (hn2 : n ≤ 65535)
    (hok : ∀ w, (handle_write_request capacity header0 evs).2 ≠ .returned (-1) w) :
    (handle_write_request capacity header0 evs).1.count (ackDgram n)
      = (wrq_received capacity (wrq_init header0).2 evs).countP (isDataCopy n) := by
  have h0 : wrq_init header0 =
      ([ackDgram 0],
        .waiting
          { blockNumber := 1, ackPacket := ackDgram 0, retryCount := 0,
            header := header0, written := [] }) := rfl
  unfold handle_write_request at hok ⊢
  simp only [h0] at hok ⊢
  rw [List.count_append, wrq_run_count capacity n hn2 evs _ (wrq_init_inv header0 hh) hb hw hok]
  have : [ackDgram 0].count (ackDgram n) = 0 := by
    rw [count_ack_singleton 0 n (by omega) hn2, if_neg (by omega)]
  omega

/-- Witness of C17 (amended): the client sends the single short block
DATA(1) and the server emits ACK(1) once. -/
theorem wrq_ack_count_witness :
    (handle_write_request 1000 [0, 0, 0, 0] [Recv.dgram (dataDgram 1 [7, 8])]).1.count
        (ackDgram 1)
      = (wrq_received 1000 (wrq_init [0, 0, 0, 0]).2
          [Recv.dgram (dataDgram 1 [7, 8])]).countP (isDataCopy 1) :=
  wrq_ack_count 1000 [0, 0, 0, 0] [Recv.dgram (dataDgram 1 [7, 8])] 1 rfl
    (by
      intro d hd
      simp only [List.mem_singleton, Recv.dgram.injEq] at hd
      subst hd
      decide)
    (by
      intro ev hev
      simp only [List.mem_singleton] at hev
      subst hev
      exact ⟨_, rfl, by decide⟩)
    (by decide) (by decide)
    (by
      intro w h
      have e : (handle_write_request 1000 [0, 0, 0, 0] [Recv.dgram (dataDgram 1 [7, 8])]).2
          = .returned 0 [7, 8] := by decide
      rw [e] at h
      cases h)

/-! ## Further facts on whole datagrams and on delete_fileEntry -/

/-- A datagram of at least four bytes that is neither DATA(e) nor DATA(e-1)
makes handle_write_request return -1 with the file unchanged: without sending
anything when its opcode is ERROR, after one ERROR packet with code 0
otherwise. -/
theorem wrq_recv_violation (capacity : Nat) (s : WrqState) (d : List Nat)
    (hh : s.header.length = 4) (hd : 4 ≤ d.length)
    (hnot : ¬ ((d.take 4).take 2 = htons TFTP_OPCODE_DATA
      ∧ (ntohs (((d.take 4).drop 2).take 2) + 1 = s.blockNumber
          ∨ ntohs (((d.take 4).drop 2).take 2) = s.blockNumber))) :
    wrq_recv capacity s (.dgram d)
      = if ntohs ((d.take 4).take 2) = TFTP_OPCODE_ERR then ([], .returned (-1) s.written)
        else ([send_error_packet NotDefined (get_error_message NotDefined) none],
               .returned (-1) s.written) := by
  simp only [wrq_recv, recvInto_whole _ _ hh hd]
  rw [if_neg (fun h => hnot ⟨h.1, Or.inl h.2⟩), if_neg (fun h => hnot ⟨h.1, Or.inr h.2⟩)]

/-- What delete_fileEntry does when its search does not fault: it returns 0
exactly when the entry found has both counters at 0 and rw_mutex free, and
then that slot alone becomes NULL and num_files is decremented; otherwise it
returns -1 and the list is unchanged. -/
theorem delete_fileEntry_effect (filename : List Nat) (fl fl2 : FileList) (rc : Int)
    (h : delete_fileEntry filename fl = some (rc, fl2)) :
    (rc = 0 ∧ ∃ i e, get_fileEntry filename fl = .found i ∧ fl.files.getD i none = some e
        ∧ e.num_readers = 0 ∧ e.num_writers = 0 ∧ e.rw_mutex = false
        ∧ fl2.files = fl.files.set i none ∧ fl2.num_files = fl.num_files - 1
        ∧ fl2.files_mutex = fl.files_mutex)
    ∨ (rc = -1 ∧ fl2 = fl
        ∧ ¬ ∃ i e, get_fileEntry filename fl = .found i ∧ fl.files.getD i none = some e
            ∧ e.num_readers = 0 ∧ e.num_writers = 0 ∧ e.rw_mutex = false) := by
  unfold delete_fileEntry at h
  split at h
  · simp at h
  · rename_i hget
    simp only [Option.some.injEq, Prod.mk.injEq] at h
    obtain ⟨rfl, rfl⟩ := h
    exact Or.inr ⟨rfl, rfl, fun ⟨i, e, hf, _⟩ => by rw [hget] at hf; cases hf⟩
  · rename_i i hget
    split at h
    · simp at h
    · rename_i e he
      split at h
      · rename_i hc
        simp only [Option.some.injEq, Prod.mk.injEq] at h
        obtain ⟨rfl, rfl⟩ := h
        exact Or.inl ⟨rfl, i, e, hget, he, hc.1, hc.2.1, hc.2.2, rfl, rfl, rfl⟩
      · rename_i hc
        simp only [Option.some.injEq, Prod.mk.injEq] at h
        obtain ⟨rfl, rfl⟩ := h
        refine Or.inr ⟨rfl, rfl, ?_⟩
        rintro ⟨j, e2, hf, he2, h1, h2, h3⟩
        rw [hget] at hf
        cases hf
        rw [he] at he2
        cases he2
        exact hc ⟨h1, h2, h3⟩

/-! ## The registry mutex -/

set_option maxRecDepth 1000000 in
set_option maxHeartbeats 4000000 in
/-- C22 (registry mutex is always released), evaluation at the failing
inputs.  When the registry holds MAX_CLIENTS = 500 entries, sync_start_read
and sync_start_write on a further file name get NULL from
get_or_create_fileEntry and return at `if (file == NULL) return;` with
files_mutex still locked; likewise sync_end_read and sync_end_write on a name
that has no entry (here on the empty registry).  The registry is left
unchanged but for the locked mutex. -/
theorem early_return_keeps_files_mutex :
    fullRegistry.num_files = 500 ∧ fullRegistry.files.length = 500
    ∧ sync_start_read [120] fullRegistry
        = .noEntry { fullRegistry with files_mutex := true }
    ∧ sync_start_write [120] fullRegistry
        = .noEntry { fullRegistry with files_mutex := true }
    ∧ sync_end_read [120] initialize_fileList
        = .noEntry { initialize_fileList with files_mutex := true }
    ∧ sync_end_write [120] initialize_fileList
        = .noEntry { initialize_fileList with files_mutex := true } := by
  decide

/-! ## handle_write_request: the block-number limit -/

/-- An iteration changes the file only when it counts as a write, and a write
carries the expected block number, which then is at most 65535; the expected
block number advances by one exactly at a write after which the handler goes
on. -/
theorem wrq_step_block (capacity : Nat) (s : WrqState) (ev : Recv)
    (hinv : WrqInv s) (hb : ∀ d, ev = Recv.dgram d → ∀ b ∈ d, b < 256) :
    (wrq_block_here s ev = [] ∨ (wrq_block_here s ev = [s.blockNumber] ∧ s.blockNumber ≤ 65535))
    ∧ (∀ s1, (wrq_recv capacity s ev).2 = .waiting s1 →
        s1.blockNumber = s.blockNumber + (wrq_block_here s ev).length)
    ∧ (wrq_block_here s ev = [] →
        (∀ s1, (wrq_recv capacity s ev).2 = .waiting s1 → s1.written = s.written)
        ∧ (∀ r w, (wrq_recv capacity s ev).2 = .returned r w → w = s.written ∧ r = -1)) := by
  obtain ⟨ha, h1, h2, hh⟩ := hinv
  cases ev with
  | timeout =>
    refine ⟨Or.inl rfl, ?_, ?_⟩
    · intro s1 h
      simp only [wrq_recv] at h
      split at h
      · simp only [WStatus.waiting.injEq] at h
        subst h
        rfl
      · simp at h
    · intro _
      constructor
      · intro s1 h
        simp only [wrq_recv] at h
        split at h
        · simp only [WStatus.waiting.injEq] at h
          subst h
          rfl
        · simp at h
      · intro r w h
        simp only [wrq_recv] at h
        split at h
        · simp at h
        · simp only [WStatus.returned.injEq] at h
          exact ⟨h.2.symm, h.1.symm⟩
  | dgram d =>
    by_cases ht : (recvInto s.header d).take 2 = htons TFTP_OPCODE_DATA
        ∧ ¬ (ntohs (((recvInto s.header d).drop 2).take 2) + 1 = s.blockNumber)
        ∧ ntohs (((recvInto s.header d).drop 2).take 2) = s.blockNumber
        ∧ ¬ (recvlen MAX_PACKET_SIZE d < TFTP_HEADER_SIZE)
    · have hhere : wrq_block_here s (.dgram d) = [s.blockNumber] := by
        simp only [wrq_block_here]
        rw [if_pos ht, ht.2.2.1]
      have hd : 4 ≤ d.length := by
        have := ht.2.2.2
        simp only [recvlen, TFTP_HEADER_SIZE, MAX_PACKET_SIZE] at this
        omega
      obtain ⟨hl2, hb2⟩ := block_field d hd (hb d rfl)
      obtain ⟨_, e2⟩ := htons_ntohs _ hl2 hb2
      have hle : s.blockNumber ≤ 65535 := by
        have h3 := ht.2.2.1
        rw [recvInto_whole _ _ hh hd] at h3
        omega
      refine ⟨Or.inr ⟨hhere, hle⟩, ?_, ?_⟩
      · intro s1 h
        rw [hhere]
        simp only [wrq_recv, if_neg (fun hc : _ ∧ _ => ht.2.1 hc.2),
          if_pos (⟨ht.1, ht.2.2.1⟩ : _ ∧ _), if_neg ht.2.2.2] at h
        split at h
        · simp at h
        · split at h
          · simp at h
          · simp only [WStatus.waiting.injEq] at h
            subst h
            rfl
      · intro h0
        rw [hhere] at h0
        cases h0
    · have hhere : wrq_block_here s (.dgram d) = [] := by
        simp only [wrq_block_here, if_neg ht]
      refine ⟨Or.inl hhere, ?_, ?_⟩
      · intro s1 h
        rw [hhere]
        simp only [wrq_recv] at h
        split at h
        · simp only [WStatus.waiting.injEq] at h
          subst h
          rfl
        · split at h
          · rename_i hnd hc
            split at h
            · simp at h
            · rename_i hlen
              exact absurd ⟨hc.1, fun h1 => hnd ⟨hc.1, h1⟩, hc.2, hlen⟩ ht
          · split at h <;> simp at h
      · intro _
        constructor
        · intro s1 h
          simp only [wrq_recv] at h
          split at h
          · simp only [WStatus.waiting.injEq] at h
            subst h
            rfl
          · split at h
            · rename_i hnd hc
              split at h
              · simp at h
              · rename_i hlen
                exact absurd ⟨hc.1, fun h1 => hnd ⟨hc.1, h1⟩, hc.2, hlen⟩ ht
            · split at h <;> simp at h
        · intro r w h
          simp only [wrq_recv] at h
          split at h
          · simp at h
          · split at h
            · rename_i hnd hc
              split at h
              · simp at h
              · rename_i hlen
                exact absurd ⟨hc.1, fun h1 => hnd ⟨hc.1, h1⟩, hc.2, hlen⟩ ht
            · split at h
              · simp only [WStatus.returned.injEq] at h
                exact ⟨h.2.symm, h.1.symm⟩
              · simp only [WStatus.returned.injEq] at h
                exact ⟨h.2.symm, h.1.symm⟩

theorem wrq_written_blocks_done (capacity : Nat) (st : WStatus) (evs : List Recv)
    (h : ∀ s, st ≠ .waiting s) : wrq_written_blocks capacity st evs = [] := by
  cases st with
  | waiting s => exact absurd rfl (h s)
  | returned r w => cases evs <;> rfl
  | undefined => cases evs <;> rfl

/-- The blocks written during a run that starts with expected block number
e carry the block numbers e, e+1, ..., and none exceeds 65535. -/
theorem wrq_written_blocks_range (capacity : Nat) :
    ∀ (evs : List Recv) (s : WrqState), WrqInv s → byteEvents evs →
      ∃ k, s.blockNumber + k ≤ 65536
        ∧ wrq_written_blocks capacity (.waiting s) evs = List.range' s.blockNumber k := by
  intro evs
  induction evs with
  | nil => intro s hinv _; exact ⟨0, by have := hinv.2.2.1; omega, rfl⟩
  | cons ev evs ih =>
    intro s hinv hb
    have hb1 : ∀ d, ev = Recv.dgram d → ∀ b ∈ d, b < 256 :=
      fun d hd => hb d (hd ▸ List.mem_cons_self _ _)
    have hb2 : byteEvents evs := fun d hd => hb d (List.mem_cons_of_mem _ hd)
    obtain ⟨hhere, hnext, _⟩ := wrq_step_block capacity s ev hinv hb1
    simp only [wrq_written_blocks]
    cases hst : (wrq_recv capacity s ev).2 with
    | waiting s1 =>
      have hinv1 : WrqInv s1 :=
        wrq_recv_inv capacity s s1 ev (wrq_recv capacity s ev).1 hinv hb1 (Prod.ext rfl hst)
      obtain ⟨k1, hk1, hr1⟩ := ih s1 hinv1 hb2
      have hbn := hnext s1 hst
      rcases hhere with h0 | ⟨h0, _⟩
      · rw [h0] at hbn ⊢
        simp only [List.length_nil, Nat.add_zero] at hbn
        rw [hbn] at hk1 hr1
        exact ⟨k1, hk1, by simpa using hr1⟩
      · rw [h0] at hbn ⊢
        simp only [List.length_singleton] at hbn
        rw [hbn] at hk1 hr1
        refine ⟨k1 + 1, by omega, ?_⟩
        rw [hr1, List.range'_succ]
        rfl
    | returned r w =>
      rw [wrq_written_blocks_done capacity _ evs (fun s h => by cases h)]
      rcases hhere with h0 | ⟨h0, hle⟩
      · exact ⟨0, by have := hinv.2.2.1; omega, by rw [h0]; rfl⟩
      · exact ⟨1, by omega, by rw [h0]; rfl⟩
    | undefined =>
      rw [wrq_written_blocks_done capacity _ evs (fun s h => by cases h)]
      rcases hhere with h0 | ⟨h0, hle⟩
      · exact ⟨0, by have := hinv.2.2.1; omega, by rw [h0]; rfl⟩
      · exact ⟨1, by omega, by rw [h0]; rfl⟩

theorem recvInto_bytes (buf d : List Nat) (hbuf : ∀ b ∈ buf, b < 256)
    (hd : ∀ b ∈ d, b < 256) : ∀ b ∈ recvInto buf d, b < 256 := by
  intro b hb
  simp only [recvInto, List.mem_append] at hb
  rcases hb with h | h
  · exact hd b (List.mem_of_mem_take h)
  · exact hbuf b (List.mem_of_mem_drop h)

/-- When the expected block number is 65536 an iteration never writes: the
handler either goes on waiting with the same expected block number and the
same file, or returns -1. -/
theorem wrq_limit_step (capacity : Nat) (s : WrqState) (ev : Recv)
    (hinv : WrqInv s) (he : s.blockNumber = 65536) (hhb : ∀ b ∈ s.header, b < 256)
    (hb : ∀ d, ev = Recv.dgram d → ∀ b ∈ d, b < 256) :
    (∃ s1, (wrq_recv capacity s ev).2 = .waiting s1 ∧ WrqInv s1 ∧ s1.blockNumber = 65536
        ∧ (∀ b ∈ s1.header, b < 256) ∧ s1.written = s.written)
    ∨ (wrq_recv capacity s ev).2 = .returned (-1) s.written := by
  cases ev with
  | timeout =>
    simp only [wrq_recv]
    split
    · exact Or.inl ⟨_, rfl, hinv, he, hhb, rfl⟩
    · exact Or.inr rfl
  | dgram d =>
    have hbytes := recvInto_bytes s.header d hhb (hb d rfl)
    have hlen : (recvInto s.header d).length = 4 := by rw [recvInto_length, hinv.2.2.2]
    have hfl : (((recvInto s.header d).drop 2).take 2).length = 2 := by simp [hlen]
    have hfb : ∀ b ∈ ((recvInto s.header d).drop 2).take 2, b < 256 :=
      fun b h => hbytes b (List.mem_of_mem_drop (List.mem_of_mem_take h))
    obtain ⟨_, hle⟩ := htons_ntohs _ hfl hfb
    simp only [wrq_recv]
    split
    · exact Or.inl ⟨_, rfl, ⟨hinv.1, hinv.2.1, hinv.2.2.1, hlen⟩, he, hbytes, rfl⟩
    · rw [if_neg (fun h : _ ∧ _ => by have := h.2; omega)]
      split
      · exact Or.inr rfl
      · exact Or.inr rfl

/-- Once the expected block number is 65536 the run never writes to the file
again and never returns 0. -/
theorem wrq_limit_run (capacity : Nat) :
    ∀ (evs : List Recv) (s : WrqState), WrqInv s → s.blockNumber = 65536 →
      (∀ b ∈ s.header, b < 256) → byteEvents evs →
      (∃ s1, (wrq_run capacity (.waiting s) evs).2 = .waiting s1 ∧ s1.blockNumber = 65536
          ∧ s1.written = s.written)
      ∨ (wrq_run capacity (.waiting s) evs).2 = .returned (-1) s.written := by
  intro evs
  induction evs with
  | nil => intro s _ he _ _; exact Or.inl ⟨s, rfl, he, rfl⟩
  | cons ev evs ih =>
    intro s hinv he hhb hb
    have hb1 : ∀ d, ev = Recv.dgram d → ∀ b ∈ d, b < 256 :=
      fun d hd => hb d (hd ▸ List.mem_cons_self _ _)
    have hb2 : byteEvents evs := fun d hd => hb d (List.mem_cons_of_mem _ hd)
    simp only [wrq_run]
    rcases wrq_limit_step capacity s ev hinv he hhb hb1 with ⟨s1, hs1, hinv1, he1, hhb1, hw1⟩ | hr
    · rw [hs1, ← hw1]
      exact ih s1 hinv1 he1 hhb1 hb2
    · rw [hr, wrq_run_returned]
      exact Or.inr rfl

/-- The bytes of the header buffer stay bytes along a run. -/
theorem wrq_run_header_bytes (capacity : Nat) :
    ∀ (evs : List Recv) (s s2 : WrqState) (out : List (List Nat)),
      (∀ b ∈ s.header, b < 256) → byteEvents evs →
      wrq_run capacity (.waiting s) evs = (out, .waiting s2) → ∀ b ∈ s2.header, b < 256 := by
  intro evs
  induction evs with
  | nil =>
    intro s s2 out hhb _ h
    simp only [wrq_run, Prod.mk.injEq, WStatus.waiting.injEq] at h
    exact h.2 ▸ hhb
  | cons ev evs ih =>
    intro s s2 out hhb hb h
    simp only [wrq_run] at h
    have hb2 : byteEvents evs := fun d hd => hb d (List.mem_cons_of_mem _ hd)
    cases hst : (wrq_recv capacity s ev).2 with
    | waiting s1 =>
      have hhb1 : ∀ b ∈ s1.header, b < 256 := by
        cases ev with
        | timeout =>
          simp only [wrq_recv] at hst
          split at hst
          · simp only [WStatus.waiting.injEq] at hst
            subst hst
            exact hhb
          · simp at hst
        | dgram d =>
          have hbytes := recvInto_bytes s.header d hhb (hb d (List.mem_cons_self _ _))
          simp only [wrq_recv] at hst
          split at hst
          · simp only [WStatus.waiting.injEq] at hst
            subst hst
            exact hbytes
          · split at hst
            · split at hst
              · simp at hst
              · split at hst
                · simp at hst
                · split at hst
                  · simp at hst
                  · simp only [WStatus.waiting.injEq] at hst
                    subst hst
                    exact hbytes
            · split at hst <;> simp at hst
      rw [hst] at h
      simp only [Prod.mk.injEq] at h
      exact ih s1 s2 _ hhb1 hb2 (Prod.ext rfl h.2)
    | returned r w =>
      rw [hst, wrq_run_returned] at h
      simp at h
    | undefined =>
      rw [hst] at h
      cases evs <;> simp [wrq_run] at h

/-- C23 (WRQ block-number limit).  In every run of handle_write_request the
blocks written to the file carry, in order, the wire block numbers 1, 2, ...,
k for some k <= 65535: the n-th block written carried block number n and at
most 65535 blocks are written.  After 65535 full blocks the handler waits
with expected block number 65536.  In every waiting state with expected block
number 65536, a DATA datagram is answered by the re-emitted ACK(65535) when
its block number is 65535 and by ERROR(NotDefined) and -1 otherwise, and
whatever is received afterwards the file is never written again and the
handler never returns 0. -/
theorem wrq_block_limit (capacity : Nat) (header0 : List Nat) (evs : List Recv)
    (hh : header0.length = 4) (hhb : ∀ b ∈ header0, b < 256) (hb : byteEvents evs) :
    (∃ k, k ≤ 65535
      ∧ wrq_written_blocks capacity (wrq_init header0).2 evs = List.range' 1 k)
    ∧ (∀ (full : List (List Nat)) (last : List Nat), full.length = 65534 →
        (∀ p ∈ full, p.length = 512) → last.length = 512 →
        full.flatten.length + last.length ≤ capacity →
        handle_write_request capacity header0 (dataSeq 1 (full ++ [last]))
          = (ackDgram 0 :: ackSeq 1 65535,
              .waiting
                { blockNumber := 65536, ackPacket := ackDgram 65535, retryCount := 0,
                  header := htons TFTP_OPCODE_DATA ++ htons 65535,
                  written := full.flatten ++ last }))
    ∧ (∀ (out : List (List Nat)) (s : WrqState),
        handle_write_request capacity header0 evs = (out, .waiting s) →
        s.blockNumber = 65536 →
        (∀ d : List Nat, 4 ≤ d.length → (∀ b ∈ d, b < 256) →
          (d.take 4).take 2 = htons TFTP_OPCODE_DATA →
          wrq_recv capacity s (.dgram d)
            = if ntohs (((d.take 4).drop 2).take 2) = 65535 then
                ([ackDgram 65535], .waiting { s with retryCount := 0, header := d.take 4 })
              else
                ([send_error_packet NotDefined (get_error_message NotDefined) none],
                  .returned (-1) s.written))
        ∧ (∀ evs2 : List Recv, byteEvents evs2 →
            (∃ s1, (wrq_run capacity (.waiting s) evs2).2 = .waiting s1
                ∧ s1.blockNumber = 65536 ∧ s1.written = s.written)
            ∨ (wrq_run capacity (.waiting s) evs2).2 = .returned (-1) s.written)) := by
  have h0 : wrq_init header0 =
      ([ackDgram 0],
        .waiting
          { blockNumber := 1, ackPacket := ackDgram 0, retryCount := 0,
            header := header0, written := [] }) := rfl
  refine ⟨?_, ?_, ?_⟩
  · obtain ⟨k, hk, hr⟩ := wrq_written_blocks_range capacity evs _ (wrq_init_inv header0 hh) hb
    simp only [] at hk
    exact ⟨k, by omega, by rw [h0]; exact hr⟩
  · intro full last hlen hfull hlast hcap
    have hrun := wrq_run_blocks capacity last (by omega) full
      { blockNumber := 1, ackPacket := ackDgram 0, retryCount := 0,
        header := header0, written := [] }
      hfull (by simp only []; omega) hh (by simp [ackDgram, htons])
      (by simpa using hcap)
    simp only [] at hrun
    unfold handle_write_request
    simp only [h0]
    rw [hrun, if_neg (by omega), hlen]
    simp
  · intro out s hreach he
    have hinv := wrq_reachable_inv capacity header0 evs out s hh hb hreach
    have hsb : ∀ b ∈ s.header, b < 256 := by
      unfold handle_write_request at hreach
      simp only [h0, Prod.mk.injEq] at hreach
      exact wrq_run_header_bytes capacity evs _ s _ hhb hb (Prod.ext rfl hreach.2)
    refine ⟨?_, fun evs2 hb2 => wrq_limit_run capacity evs2 s hinv he hsb hb2⟩
    intro d hd hdb hop
    obtain ⟨hl2, hb2⟩ := block_field d hd hdb
    obtain ⟨_, hle⟩ := htons_ntohs _ hl2 hb2
    have hack : s.ackPacket = ackDgram 65535 := by rw [hinv.1, he]
    simp only [wrq_recv, recvInto_whole _ _ hinv.2.2.2 hd, hop, true_and, he]
    by_cases hm : ntohs (((d.take 4).drop 2).take 2) = 65535
    · rw [if_pos (by omega), if_pos hm, hack]
    · rw [if_neg (by omega), if_neg (by omega), if_neg hm,
        if_neg (by simp [htons, ntohs, TFTP_OPCODE_DATA, TFTP_OPCODE_ERR])]

/-- Witness of C23: the single short block "hi" is written as block 1. -/
theorem wrq_block_limit_witness :
    ∃ k, k ≤ 65535
      ∧ wrq_written_blocks 10 (wrq_init [0, 0, 0, 0]).2 [Recv.dgram (dataDgram 1 [104, 105])]
          = List.range' 1 k :=
  (wrq_block_limit 10 [0, 0, 0, 0] [Recv.dgram (dataDgram 1 [104, 105])] rfl
    (by decide)
    (by
      intro d hd
      simp only [List.mem_singleton, Recv.dgram.injEq] at hd
      subst hd
      decide)).1

/-! ## sync_start_read: readers beside readers -/

theorem initialize_fileList_cons :
    initialize_fileList =
      { files := none :: List.replicate (MAX_CLIENTS - 1) none, num_files := 0,
        files_mutex := false } := by
  rfl

theorem start_read_registry (f : List Nat) (k : Nat) :
    sync_start_read f (readerRegistry f k) = .returned (readerRegistry f (k + 1)) none := by
  rcases Nat.eq_zero_or_pos k with hk | hk
  · subst hk
    simp [sync_start_read, get_or_create_fileEntry, get_fileEntry, get_fileEntry_scan,
      readerRegistry, readerEntry, read_loop, setEntry]
  · have hk0 : ¬ ((k : Int) = 0) := by omega
    simp [sync_start_read, get_or_create_fileEntry, get_fileEntry, get_fileEntry_scan,
      readerRegistry, readerEntry, read_loop, setEntry, hk, hk0]

theorem start_read_empty (f : List Nat) :
    sync_start_read f initialize_fileList = .returned (readerRegistry f 1) none := by
  rw [initialize_fileList_cons]
  have hfull : ¬ (MAX_CLIENTS ≤ 0) := by decide
  simp [sync_start_read, get_or_create_fileEntry, get_fileEntry, get_fileEntry_scan,
    add_fileEntry, create_fileEntry, hfull, List.findIdx_cons,
    readerRegistry, readerEntry, read_loop, setEntry]

theorem end_read_registry (f : List Nat) (k : Nat) :
    sync_end_read f (readerRegistry f (k + 1)) =
      .returned (readerRegistry f k) (if k = 0 then some 0 else none) := by
  rcases Nat.eq_zero_or_pos k with hk | hk
  · subst hk
    simp [sync_end_read, get_fileEntry, get_fileEntry_scan,
      readerRegistry, readerEntry, setEntry]
  · have hk0 : ¬ ((k : Int) = 0) := by omega
    have hk1 : ¬ (k = 0) := by omega
    simp [sync_end_read, get_fileEntry, get_fileEntry_scan,
      readerRegistry, readerEntry, setEntry, hk, hk0, hk1]

theorem delete_registry (f : List Nat) (k : Nat) :
    delete_fileEntry f (readerRegistry f k) =
      some (if k = 0 then (0, initialize_fileList) else (-1, readerRegistry f k)) := by
  rcases Nat.eq_zero_or_pos k with hk | hk
  · subst hk
    rw [initialize_fileList_cons]
    simp [delete_fileEntry, get_fileEntry, get_fileEntry_scan, readerRegistry, readerEntry]
  · have hk0 : ¬ ((k : Int) = 0) := by omega
    have hk1 : ¬ (k = 0) := by omega
    simp [delete_fileEntry, get_fileEntry, get_fileEntry_scan, readerRegistry, readerEntry,
      hk, hk0, hk1]

theorem delete_empty (f : List Nat) :
    delete_fileEntry f initialize_fileList = some (-1, initialize_fileList) := by
  simp [delete_fileEntry, get_fileEntry, get_fileEntry_scan, initialize_fileList]

theorem countP_set_add {α : Type} (p : α → Bool) (l : List α) (i : Nat) (a b : α)
    (h : l[i]? = some a) :
    (l.set i b).countP p + (if p a then 1 else 0) = l.countP p + (if p b then 1 else 0) := by
  induction l generalizing i with
  | nil => simp at h
  | cons x xs ih =>
    cases i with
    | zero =>
      simp at h
      subst h
      simp [List.countP_cons]
      omega
    | succ n =>
      simp at h
      have := ih n h
      simp [List.countP_cons]
      omega

theorem broadcast_no_waiting (j : Nat) (ss : List Session)
    (h : ∀ s ∈ ss,
      s.phase = .idle ∨ s.phase = .inside ∨ s.phase = .ending ∨ s.phase = .finished) :
    broadcast j ss = ss := by
  unfold broadcast
  conv_rhs => rw [← List.map_id ss]
  apply List.map_congr_left
  intro s hs
  rcases h s hs with hp | hp | hp | hp <;> simp [hp]

theorem insideCount_set (ss : List Session) (sid : Nat) (s : Session) (p : Phase)
    (h : ss[sid]? = some s) :
    insideCount (ss.set sid { s with phase := p }) + (if s.phase = .inside then 1 else 0) =
      insideCount ss + (if p = .inside then 1 else 0) := by
  have := countP_set_add (fun s : Session => decide (s.phase = .inside)) ss sid s
    { s with phase := p } h
  simpa [insideCount] using this

theorem readOnly_step (f : List Nat) (st st2 : SyncState) (sid : Nat)
    (hinv : ReadOnlyInv f st) (hstep : step st sid = some st2) : ReadOnlyInv f st2 := by
  obtain ⟨hs, hr⟩ := hinv
  have hmx : st.file_list.files_mutex = false := by
    rcases hr with h | ⟨_, h⟩ <;> rw [h] <;> rfl
  unfold step at hstep
  rw [hmx] at hstep
  simp only [Bool.false_eq_true, if_false] at hstep
  cases hg : st.sessions.get? sid with
  | none => rw [hg] at hstep; simp at hstep
  | some s =>
    rw [hg] at hstep
    have hg2 : st.sessions[sid]? = some s := by
      rw [← List.get?_eq_getElem?]; exact hg
    have hmem : s ∈ st.sessions := List.getElem?_mem hg2
    obtain ⟨sk, sf, sp⟩ := s
    obtain ⟨hk, hf, hp⟩ := hs _ hmem
    simp only at hk hf hp
    subst hk
    subst hf
    have hset : ∀ p : Phase, (p = .idle ∨ p = .inside ∨ p = .ending ∨ p = .finished) →
        ∀ x ∈ st.sessions.set sid { kind := .reader, filename := sf, phase := p },
          x.kind = .reader ∧ x.filename = sf ∧
            (x.phase = .idle ∨ x.phase = .inside ∨ x.phase = .ending ∨ x.phase = .finished) := by
      intro p hp2 x hx
      rcases List.mem_or_eq_of_mem_set hx with h | h
      · exact hs x h
      · subst h; exact ⟨rfl, rfl, hp2⟩
    rcases hp with hp | hp | hp | hp
    · subst hp
      simp only at hstep
      have hc := insideCount_set st.sessions sid _ .inside hg2
      simp at hc
      rcases hr with h | ⟨h0, h⟩
      · rw [h, start_read_registry] at hstep
        simp only [applyResult, Option.some.injEq] at hstep
        subst hstep
        exact ⟨hset .inside (Or.inr (Or.inl rfl)), Or.inl (by simp only [hc])⟩
      · rw [h, start_read_empty] at hstep
        simp only [applyResult, Option.some.injEq] at hstep
        subst hstep
        exact ⟨hset .inside (Or.inr (Or.inl rfl)), Or.inl (by simp only [hc, h0])⟩
    · subst hp
      simp only at hstep
      have hc := insideCount_set st.sessions sid _ .ending hg2
      simp at hc
      rcases hr with h | ⟨h0, h⟩
      · rw [h, ← hc, end_read_registry] at hstep
        by_cases hz : insideCount
            (st.sessions.set sid { kind := .reader, filename := sf, phase := .ending }) = 0
        · simp only [hz, if_true, applyResult, Option.some.injEq] at hstep
          subst hstep
          rw [broadcast_no_waiting _ _
            (fun x hx => (hset .ending (Or.inr (Or.inr (Or.inl rfl))) x hx).2.2)]
          exact ⟨hset .ending (Or.inr (Or.inr (Or.inl rfl))), Or.inl (by simp only [hz])⟩
        · simp only [hz, if_false, applyResult, Option.some.injEq] at hstep
          subst hstep
          exact ⟨hset .ending (Or.inr (Or.inr (Or.inl rfl))), Or.inl rfl⟩
      · omega
    · subst hp
      simp only at hstep
      have hc := insideCount_set st.sessions sid _ .finished hg2
      simp at hc
      rcases hr with h | ⟨h0, h⟩
      · rw [h, delete_registry] at hstep
        by_cases hz : insideCount st.sessions = 0
        · simp only [hz, if_true, Option.some.injEq] at hstep
          subst hstep
          exact ⟨hset .finished (Or.inr (Or.inr (Or.inr rfl))),
            Or.inr ⟨by simp only [hc, hz], rfl⟩⟩
        · simp only [hz, if_false, Option.some.injEq] at hstep
          subst hstep
          exact ⟨hset .finished (Or.inr (Or.inr (Or.inr rfl))), Or.inl (by simp only [hc])⟩
      · rw [h, delete_empty] at hstep
        simp only [Option.some.injEq] at hstep
        subst hstep
        exact ⟨hset .finished (Or.inr (Or.inr (Or.inr rfl))),
          Or.inr ⟨by simp only [hc, h0], rfl⟩⟩
    · subst hp
      simp at hstep

theorem readOnly_run (f : List Nat) (schedule : List Nat) (st st2 : SyncState)
    (hinv : ReadOnlyInv f st) (hrun : run st schedule = some st2) : ReadOnlyInv f st2 := by
  induction schedule generalizing st with
  | nil =>
    simp only [run, Option.some.injEq] at hrun
    subst hrun
    exact hinv
  | cons sid rest ih =>
    simp only [run] at hrun
    cases hst : step st sid with
    | none => rw [hst] at hrun; simp at hrun
    | some st1 =>
      rw [hst] at hrun
      exact ih st1 (readOnly_step f st st1 sid hinv hst) hrun

theorem readOnly_init (f : List Nat) (n : Nat) :
    ReadOnlyInv f (initSync (List.replicate n (Kind.reader, f))) := by
  refine ⟨?_, Or.inr ⟨?_, rfl⟩⟩
  · intro s hs
    simp only [initSync, List.map_replicate] at hs
    rw [List.eq_of_mem_replicate hs]
    exact ⟨rfl, rfl, Or.inl rfl⟩
  · simp only [initSync, List.map_replicate, insideCount]
    rw [List.countP_eq_zero]
    intro s hs
    rw [List.eq_of_mem_replicate hs]
    simp

/-- When the lookup of get_fileEntry finds the entry `e` of the name in slot
`i` and `e.actif_readers > 0`, sync_start_read returns without waiting: the
entry gets num_readers + 1 and actif_readers + 1, rw_mutex is locked
afterwards (taken by the trylock when it was free), nothing else changes. -/
theorem start_read_admits (filename : List Nat) (fl : FileList) (i : Nat) (e : FileEntry)
    (hget : get_fileEntry filename fl = .found i) (he : fl.files.getD i none = some e)
    (hact : 0 < e.actif_readers) :
    sync_start_read filename fl
      = .returned
          (setEntry fl i
            { e with rw_mutex := true, num_readers := e.num_readers + 1,
                     actif_readers := e.actif_readers + 1 }) none := by
  have h0 : ¬ (e.actif_readers = 0) := by omega
  unfold sync_start_read get_or_create_fileEntry
  rw [hget]
  simp only
  rw [he]
  simp only [read_loop]
  cases hrw : e.rw_mutex <;> simp [h0]

/-- In a workload made only of readers of one file, started from the empty
registry, no session ever sleeps in pthread_cond_wait, no step faults, every
session that has not started is admitted by its next step, and every session
that has not finished can take a step. -/
theorem read_only_never_waits (n : Nat) (f : List Nat) (schedule : List Nat) (st : SyncState)
    (hrun : run (initSync (List.replicate n (Kind.reader, f))) schedule = some st) :
    (∀ s ∈ st.sessions, ∀ j w, s.phase ≠ .waiting j w)
      ∧ (∀ sid s, st.sessions.get? sid = some s → s.phase = .idle →
          ∃ fl2, sync_start_read s.filename st.file_list = .returned fl2 none
            ∧ step st sid
                = some { file_list := fl2
                         sessions := st.sessions.set sid { s with phase := .inside } })
      ∧ (∀ sid s, st.sessions.get? sid = some s → s.phase ≠ .finished →
          ∃ st2, step st sid = some st2) := by
  have hinv := readOnly_run f schedule _ st (readOnly_init f n) hrun
  obtain ⟨hs, hr⟩ := hinv
  have hmx : st.file_list.files_mutex = false := by
    rcases hr with h | ⟨_, h⟩ <;> rw [h] <;> rfl
  have hidle : ∀ sid s, st.sessions.get? sid = some s → s.phase = .idle →
      ∃ fl2, sync_start_read s.filename st.file_list = .returned fl2 none
        ∧ step st sid
            = some { file_list := fl2
                     sessions := st.sessions.set sid { s with phase := .inside } } := by
    intro sid s hg hp
    obtain ⟨hk, hf, -⟩ := hs s (List.get?_mem hg)
    have hret : ∃ fl2, sync_start_read s.filename st.file_list = .returned fl2 none := by
      rcases hr with h | ⟨_, h⟩
      · exact ⟨_, by rw [h, hf, start_read_registry]⟩
      · exact ⟨_, by rw [h, hf, start_read_empty]⟩
    obtain ⟨fl2, hfl2⟩ := hret
    refine ⟨fl2, hfl2, ?_⟩
    unfold step
    rw [hmx]
    simp only [Bool.false_eq_true, if_false]
    rw [hg]
    simp only [hp, hk, hfl2, applyResult]
  refine ⟨?_, hidle, ?_⟩
  · intro s hs2 j w hw
    rcases (hs s hs2).2.2 with hp | hp | hp | hp <;> rw [hp] at hw <;> cases hw
  · intro sid s hg hfin
    obtain ⟨hk, hf, hp⟩ := hs s (List.get?_mem hg)
    have hg2 : st.sessions[sid]? = some s := by
      rw [← List.get?_eq_getElem?]; exact hg
    rcases hp with hp | hp | hp | hp
    · obtain ⟨fl2, -, h⟩ := hidle sid s hg hp
      exact ⟨_, h⟩
    · have hc := insideCount_set st.sessions sid s .ending hg2
      rw [hp] at hc
      simp at hc
      unfold step
      rw [hmx]
      simp only [Bool.false_eq_true, if_false]
      rw [hg]
      simp only [hp, hk]
      rcases hr with h | ⟨h0, h⟩
      · rw [h, hf, ← hc, end_read_registry]
        split <;> exact ⟨_, rfl⟩
      · omega
    · unfold step
      rw [hmx]
      simp only [Bool.false_eq_true, if_false]
      rw [hg]
      simp only [hp]
      rcases hr with h | ⟨h0, h⟩
      · rw [h, hf, delete_registry]
        exact ⟨_, rfl⟩
      · rw [h, delete_empty]
        exact ⟨_, rfl⟩
    · exact absurd hp hfin

set_option maxRecDepth 100000 in
/-- C21 (readers admit readers), evaluation at the failing input.  Sessions
on "a" and "b" have started and the one on "a" has ended: slot 0 is NULL, the
entry of "b" is in slot 1 with actif_readers = 1 and num_files is 1.  A second
reader of "b" is not admitted: sync_start_read("b") reads through the NULL
slot 0 in its lookup and faults instead of returning with both reader
counters increased, so the session has no step. -/
theorem reader_beside_reader_faults :
    ∃ st, run (initSync [(.reader, [97]), (.reader, [98]), (.reader, [98])]) [0, 1, 0, 0]
          = some st
      ∧ st.file_list.files.take 2
          = [none, some { filename := [98], rw_mutex := true, actif_readers := 1,
                          num_readers := 1, num_writers := 0 }]
      ∧ st.file_list.num_files = 1
      ∧ entryOf [98] st.file_list
          = some { filename := [98], rw_mutex := true, actif_readers := 1,
                   num_readers := 1, num_writers := 0 }
      ∧ sync_start_read [98] st.file_list = .fault
      ∧ step st 2 = none := by
  refine ⟨_, rfl, ?_, ?_, ?_, ?_, ?_⟩ <;> rfl

end TFTP
